import Mathlib

/-!
Verification of the expression type-checking and constant-folding engine
from go/types/expr.go (package types of skyportsystems/go.tools).

The development is a shallow embedding: every checker function that a claim
refers to is translated from the Go source into an executable Lean function.
Machine integers are modelled as `Int` with explicit bounds (the Go source
works on arbitrary-precision `exact.Value` constants, and the few places
where it uses `int64` arithmetic are noted at the definition).  Components
of the repository that are not part of the analyzed sources (the `exact`
constant-arithmetic package, the predicates of predicates.go, Context sizes,
and check.assignment) are modelled from the specification; each such
definition carries a doc comment starting with `Modelled from the spec:`.
-/

namespace GoTypes

/-- Tokens of go/token that the expression checker dispatches on. -/
inductive Token
  | ADD | SUB | MUL | QUO | REM
  | AND | OR | XOR | AND_NOT
  | LAND | LOR
  | SHL | SHR
  | EQL | NEQ | LSS | LEQ | GTR | GEQ
  | NOT | ARROW
  | QUO_ASSIGN
deriving DecidableEq, Repr

/-- The basic kinds of go/types, in the order of the Go enumeration
(the order matters for untyped numeric widening). -/
inductive BasicKind
  | Invalid
  | Bool
  | Int | Int8 | Int16 | Int32 | Int64
  | Uint | Uint8 | Uint16 | Uint32 | Uint64 | Uintptr
  | Float32 | Float64
  | Complex64 | Complex128
  | String
  | UnsafePointer
  | UntypedBool | UntypedInt | UntypedRune | UntypedFloat | UntypedComplex
  | UntypedString | UntypedNil
deriving DecidableEq, Repr

/-- Modelled from the spec: ordinal of a basic kind in the Go enumeration,
used for the rank comparison `xkind < tkind` of convertUntyped. -/
def kindCode : BasicKind → Nat
  | .Invalid => 0
  | .Bool => 1
  | .Int => 2
  | .Int8 => 3
  | .Int16 => 4
  | .Int32 => 5
  | .Int64 => 6
  | .Uint => 7
  | .Uint8 => 8
  | .Uint16 => 9
  | .Uint32 => 10
  | .Uint64 => 11
  | .Uintptr => 12
  | .Float32 => 13
  | .Float64 => 14
  | .Complex64 => 15
  | .Complex128 => 16
  | .String => 17
  | .UnsafePointer => 18
  | .UntypedBool => 19
  | .UntypedInt => 20
  | .UntypedRune => 21
  | .UntypedFloat => 22
  | .UntypedComplex => 23
  | .UntypedString => 24
  | .UntypedNil => 25

/-- Modelled from the spec: the exact-value package's tagged union
(bool, big integer, rational float, complex pair, string, nil, unknown). -/
inductive Value
  | unknown
  | boolV (b : Bool)
  | intV (z : Int)
  | floatV (num den : Int)
  | complexV (renum reden imnum imden : Int)
  | strV (s : String)
  | nilV
deriving DecidableEq, Repr

/-- Modelled from the spec: exact.Int64Val returns the value and whether the
representation as a signed 64-bit integer is exact. -/
def Value.int64Val : Value → Option Int
  | .intV z =>
    if -9223372036854775808 ≤ z ∧ z ≤ 9223372036854775807 then some z else none
  | _ => none

/-- Modelled from the spec: exact.Uint64Val returns the value and whether the
representation as an unsigned 64-bit integer is exact. -/
def Value.uint64Val : Value → Option Nat
  | .intV z =>
    if 0 ≤ z ∧ z ≤ 18446744073709551615 then some z.toNat else none
  | _ => none

/-- Modelled from the spec: exact.BitLen, the number of bits of the absolute
value of an integer constant. -/
def Value.bitLen : Value → Nat
  | .intV z => z.natAbs.size
  | _ => 0

/-- Modelled from the spec: exact.Sign of a numeric constant. For kinds on
which the Go function is never called by the analyzed code the result is
irrelevant; 1 is returned. -/
def Value.signv : Value → Int
  | .intV z => Int.sign z
  | .floatV num _ => Int.sign num
  | _ => 1

/-- Modelled from the spec: exact.StringVal. -/
def Value.strVal : Value → String
  | .strV s => s
  | _ => ""

/-- Modelled from the spec: exact ordering of two rationals given as
numerator/denominator pairs; cross-multiplication keeps the comparison
exact (no precision loss), with the sign of the denominators accounted
for.  A zero denominator cannot arise for normalized constants. -/
def ratOrd (n1 d1 n2 d2 : Int) : Ordering :=
  if 0 < d1 * d2 then compare (n1 * d2) (n2 * d1)
  else if d1 * d2 < 0 then compare (n2 * d1) (n1 * d2)
  else Ordering.eq

/-- A real (integer or rational) constant; only these admit ordering. -/
def Value.isReal : Value → Bool
  | .intV _ | .floatV _ _ => true
  | _ => false

/-- Numeric constants viewed as complex rational pairs: integers and
rationals promote with zero imaginary part (the promotion exact.Compare
performs across numeric categories). -/
def Value.asComplex : Value → Option (Int × Int × Int × Int)
  | .intV z => some (z, 1, 0, 1)
  | .floatV n d => some (n, d, 0, 1)
  | .complexV rn rd iN iD => some (rn, rd, iN, iD)
  | _ => none

/-- Modelled from the spec: exact.Compare — exact, precision-preserving
comparison over the full tagged union.  Numeric constants are promoted to
the common (complex rational) representation and compared by exact
cross-multiplication; equality holds for complex pairs when both
components agree; ordering is defined only on real (integer/rational)
constants (the Go function is never called on an ordered operator with a
complex operand — it would be a checker bug); strings compare
lexicographically, booleans and nil only for (in)equality. -/
def Value.compareOp (x : Value) (op : Token) (y : Value) : Bool :=
  match x.asComplex, y.asComplex with
  | some (rn1, rd1, in1, id1), some (rn2, rd2, in2, id2) =>
    match op with
    | .EQL => ratOrd rn1 rd1 rn2 rd2 == Ordering.eq &&
        ratOrd in1 id1 in2 id2 == Ordering.eq
    | .NEQ => !(ratOrd rn1 rd1 rn2 rd2 == Ordering.eq &&
        ratOrd in1 id1 in2 id2 == Ordering.eq)
    | .LSS => x.isReal && y.isReal && (ratOrd rn1 rd1 rn2 rd2 == Ordering.lt)
    | .LEQ => x.isReal && y.isReal && !(ratOrd rn1 rd1 rn2 rd2 == Ordering.gt)
    | .GTR => x.isReal && y.isReal && (ratOrd rn1 rd1 rn2 rd2 == Ordering.gt)
    | .GEQ => x.isReal && y.isReal && !(ratOrd rn1 rd1 rn2 rd2 == Ordering.lt)
    | _ => false
  | _, _ =>
    match x, y with
    | .strV a, .strV b =>
      match op with
      | .EQL => a == b
      | .NEQ => a != b
      | .LSS => compare a b == Ordering.lt
      | .LEQ => compare a b != Ordering.gt
      | .GTR => compare a b == Ordering.gt
      | .GEQ => compare a b != Ordering.lt
      | _ => false
    | .boolV a, .boolV b =>
      match op with
      | .EQL => a == b
      | .NEQ => a != b
      | _ => false
    | .nilV, .nilV => op == .EQL
    | _, _ => false

/-- Modelled from the spec: exact.Shift; left shifts multiply by a power of
two, right shifts are arithmetic (floor division by a power of two). -/
def Value.shiftOp (x : Value) (op : Token) (s : Nat) : Value :=
  match x with
  | .intV z =>
    match op with
    | .SHL => .intV (z * 2 ^ s)
    | .SHR => .intV (Int.fdiv z (2 ^ s))
    | _ => .unknown
  | _ => .unknown

/-- Modelled from the spec: exact.BinaryOp on integer and string constants.
QUO yields an exact rational, QUO_ASSIGN (forced for integer operands by the
checker) truncating integer division, REM the matching remainder.  Bitwise
folding is not exercised by any claim and maps to unknown. -/
def Value.binOp (x : Value) (op : Token) (y : Value) : Value :=
  match x, y with
  | .intV a, .intV b =>
    match op with
    | .ADD => .intV (a + b)
    | .SUB => .intV (a - b)
    | .MUL => .intV (a * b)
    | .QUO => .floatV a b
    | .QUO_ASSIGN => .intV (Int.tdiv a b)
    | .REM => .intV (Int.tmod a b)
    | _ => .unknown
  | .strV a, .strV b =>
    match op with
    | .ADD => .strV (a ++ b)
    | _ => .unknown
  | _, _ => .unknown

/-- Modelled from the spec: the type variants of the type model (basic,
pointer, array with length, slice, map, channel, signature, interface with
an emptiness flag for its method set, named). -/
inductive Ty
  | basic (k : BasicKind)
  | pointer (base : Ty)
  | array (len : Int) (elt : Ty)
  | slice (elt : Ty)
  | mapT (key elt : Ty)
  | chanT (elt : Ty)
  | signatureT
  | iface (isEmpty : Bool)
  | named (id : Nat) (under : Ty)
deriving DecidableEq, Repr

/-- Typ[k]: the basic type with kind k. -/
def Typ (k : BasicKind) : Ty := Ty.basic k

/-- Underlying type; the stored underlying of a named type is itself never
named. -/
def Ty.underlying : Ty → Ty
  | .named _ u => u
  | t => t

/-- Deref: peel one pointer (used for composite literal types). -/
def Ty.deref : Ty → Ty
  | .pointer b => b
  | t => t

/-- Modelled from the spec: the untyped-default tag of a basic kind
(predicates.go is not among the analyzed sources). -/
def isUntypedK : BasicKind → Bool
  | .UntypedBool | .UntypedInt | .UntypedRune | .UntypedFloat
  | .UntypedComplex | .UntypedString | .UntypedNil => true
  | _ => false

/-- Modelled from the spec: integer kinds (widths 8/16/32/64 plus the
platform-sized kinds and the untyped integer defaults). -/
def isIntegerK : BasicKind → Bool
  | .Int | .Int8 | .Int16 | .Int32 | .Int64
  | .Uint | .Uint8 | .Uint16 | .Uint32 | .Uint64 | .Uintptr
  | .UntypedInt | .UntypedRune => true
  | _ => false

/-- Modelled from the spec: unsigned integer kinds. -/
def isUnsignedK : BasicKind → Bool
  | .Uint | .Uint8 | .Uint16 | .Uint32 | .Uint64 | .Uintptr => true
  | _ => false

/-- Modelled from the spec: floating-point kinds. -/
def isFloatK : BasicKind → Bool
  | .Float32 | .Float64 | .UntypedFloat => true
  | _ => false

/-- Modelled from the spec: complex kinds. -/
def isComplexK : BasicKind → Bool
  | .Complex64 | .Complex128 | .UntypedComplex => true
  | _ => false

/-- Modelled from the spec: boolean kinds. -/
def isBooleanK : BasicKind → Bool
  | .Bool | .UntypedBool => true
  | _ => false

/-- Modelled from the spec: string kinds. -/
def isStringK : BasicKind → Bool
  | .String | .UntypedString => true
  | _ => false

/-- Modelled from the spec: numeric = integer, float or complex. -/
def isNumericK (k : BasicKind) : Bool :=
  isIntegerK k || isFloatK k || isComplexK k

/-- Modelled from the spec: ordered kinds (integers, floats, strings). -/
def isOrderedK (k : BasicKind) : Bool :=
  isIntegerK k || isFloatK k || isStringK k

/-- The basic kind of a type, Invalid when the type is not basic (the Go
source uses a checked type assertion at the corresponding places). -/
def asBasic : Ty → BasicKind
  | .basic k => k
  | _ => .Invalid

/-- isUntyped on types, via the underlying basic kind. -/
def isUntyped (t : Ty) : Bool := isUntypedK (asBasic t.underlying)

/-- isInteger on types. -/
def isInteger (t : Ty) : Bool := isIntegerK (asBasic t.underlying)

/-- isUnsigned on types. -/
def isUnsigned (t : Ty) : Bool := isUnsignedK (asBasic t.underlying)

/-- isNumeric on types. -/
def isNumeric (t : Ty) : Bool := isNumericK (asBasic t.underlying)

/-- isBoolean on types. -/
def isBoolean (t : Ty) : Bool := isBooleanK (asBasic t.underlying)

/-- isString on types. -/
def isString (t : Ty) : Bool := isStringK (asBasic t.underlying)

/-- isOrdered on types. -/
def isOrdered (t : Ty) : Bool := isOrderedK (asBasic t.underlying)

/-- Modelled from the spec: the default concrete type of an untyped kind
(bool, int, rune, float64, complex128, string; nil stays untyped nil). -/
def defaultType (t : Ty) : Ty :=
  match t.underlying with
  | .basic k =>
    match k with
    | .UntypedBool => Typ .Bool
    | .UntypedInt => Typ .Int
    | .UntypedRune => Typ .Int32
    | .UntypedFloat => Typ .Float64
    | .UntypedComplex => Typ .Complex128
    | .UntypedString => Typ .String
    | .UntypedNil => Typ .UntypedNil
    | _ => t
  | _ => t

/-- Modelled from the spec: structural type identity over the closed type
model (IsIdentical of the types package is not among the analyzed
sources). -/
def IsIdentical (t1 t2 : Ty) : Bool := t1 == t2

/-- Modelled from the spec: comparable types (basics, pointers, channels,
interfaces, arrays of comparable element type). -/
def isComparable : Ty → Bool
  | .basic k => !(k == .Invalid)
  | .pointer _ => true
  | .chanT _ => true
  | .iface _ => true
  | .array _ e => isComparable e
  | .named _ u => isComparable u
  | _ => false

/-- Modelled from the spec: nilable types (slice, pointer, signature,
interface, map, channel). -/
def hasNil (t : Ty) : Bool :=
  match t.underlying with
  | .slice _ | .pointer _ | .signatureT | .iface _ | .mapT _ _ | .chanT _ => true
  | _ => false

/-- The data the checker context contributes to the analyzed code: the
configured word size in bytes for the platform-sized kinds. -/
structure Context where
  wordBytes : Nat
deriving DecidableEq, Repr

/-- Modelled from the spec: Context.sizeof — fixed sizes for the fixed-width
kinds, the configured word size for int/uint/uintptr. -/
def Context.sizeof (c : Context) (k : BasicKind) : Nat :=
  match k with
  | .Int | .Uint | .Uintptr => c.wordBytes
  | .Bool | .Int8 | .Uint8 => 1
  | .Int16 | .Uint16 => 2
  | .Int32 | .Uint32 | .Float32 => 4
  | .Int64 | .Uint64 | .Float64 | .Complex64 => 8
  | .Complex128 => 16
  | _ => c.wordBytes

/-- isRepresentableConst, translated from expr.go lines 157-265.  The Go
source computes the signed bounds with int64 shifts whose wrap-around for a
64-bit width yields exactly -2^(s-1) and 2^(s-1)-1; for the word sizes the
checker is ever configured with (s ≤ 64) the bounds written here are the
values the source computes.  The first inner `match` is the switch inside
the `if x, ok := exact.Int64Val(x); ok` block: a matched case returns
(`some`), an unmatched case falls through (`none`) to the BitLen-based
second switch, whose own fall-through is the function's final
`return false`. -/
def isRepresentableConst (x : Value) (ctxt : Context) (as : BasicKind) : Bool :=
  match x with
  | .unknown => true
  | .boolV _ => as == .Bool || as == .UntypedBool
  | .intV _ =>
    let first : Option Bool :=
      match x.int64Val with
      | some xv =>
        match as with
        | .Int =>
          let s := ctxt.sizeof .Int * 8
          some (decide (-(2 ^ (s - 1) : Int) ≤ xv ∧ xv ≤ 2 ^ (s - 1) - 1))
        | .Int8 => some (decide (-(2 ^ 7 : Int) ≤ xv ∧ xv ≤ 2 ^ 7 - 1))
        | .Int16 => some (decide (-(2 ^ 15 : Int) ≤ xv ∧ xv ≤ 2 ^ 15 - 1))
        | .Int32 => some (decide (-(2 ^ 31 : Int) ≤ xv ∧ xv ≤ 2 ^ 31 - 1))
        | .Int64 => some true
        | .Uint | .Uintptr =>
          let s := ctxt.sizeof as * 8
          if s < 64 then some (decide (0 ≤ xv ∧ xv ≤ 2 ^ s - 1))
          else some (decide (0 ≤ xv))
        | .Uint8 => some (decide (0 ≤ xv ∧ xv ≤ 2 ^ 8 - 1))
        | .Uint16 => some (decide (0 ≤ xv ∧ xv ≤ 2 ^ 16 - 1))
        | .Uint32 => some (decide (0 ≤ xv ∧ xv ≤ 2 ^ 32 - 1))
        | .Uint64 => some (decide (0 ≤ xv))
        | .Float32 | .Float64 | .Complex64 | .Complex128 => some true
        | .UntypedInt | .UntypedFloat | .UntypedComplex => some true
        | _ => none
      | none => none
    match first with
    | some b => b
    | none =>
      let n := x.bitLen
      match as with
      | .Uint | .Uintptr =>
        let s := ctxt.sizeof as * 8
        decide (x.signv ≥ 0) && decide (n ≤ s)
      | .Uint64 => decide (x.signv ≥ 0) && decide (n ≤ 64)
      | .Float32 | .Float64 | .Complex64 | .Complex128 => true
      | .UntypedInt | .UntypedFloat | .UntypedComplex => true
      | _ => false
  | .floatV _ _ =>
    match as with
    | .Float32 | .Float64 | .Complex64 | .Complex128 => true
    | .UntypedFloat | .UntypedComplex => true
    | _ => false
  | .complexV _ _ _ _ =>
    match as with
    | .Complex64 | .Complex128 | .UntypedComplex => true
    | _ => false
  | .strV _ => as == .String || as == .UntypedString
  | .nilV => as == .UntypedNil || as == .UnsafePointer

/-- isShift, translated from expr.go. -/
def isShift (op : Token) : Bool := op == .SHL || op == .SHR

/-- isComparison, translated from expr.go. -/
def isComparison (op : Token) : Bool :=
  match op with
  | .EQL | .NEQ | .LSS | .LEQ | .GTR | .GEQ => true
  | _ => false

/-- The expression shapes updateExprType dispatches on.  `ident`, `basicLit`,
`selector` and `call` have no operands to update; `otherE` stands for the
never-untyped shapes (BadExpr, FuncLit, CompositeLit, IndexExpr, SliceExpr,
TypeAssertExpr, StarExpr, KeyValueExpr and the type expressions).  The
numeric payloads model node identity. -/
inductive Expr
  | ident (id : Nat)
  | basicLit (id : Nat)
  | selector (id : Nat)
  | call (id : Nat)
  | paren (inner : Expr)
  | unaryE (op : Token) (inner : Expr)
  | binaryE (op : Token) (left right : Expr)
  | otherE (id : Nat)
deriving DecidableEq, Repr

/-- Structural size of an expression; a proper sub-expression always has a
strictly smaller size (models distinct node identity of the Go AST). -/
def Expr.size : Expr → Nat
  | .paren e => e.size + 1
  | .unaryE _ e => e.size + 1
  | .binaryE _ a b => a.size + b.size + 1
  | _ => 1

/-- The expression shapes that can carry an entry of the untyped map; the
source treats the `otherE` shapes as "never untyped" (debug-mode
unreachable). -/
def trackable : Expr → Bool
  | .otherE _ => false
  | _ => true

/-- Operand modes (operand.go): `constantM` and `variableM` stand for the Go
modes `constant` and `variable` (Lean keywords). -/
inductive OperandMode
  | invalid
  | novalue
  | constantM
  | variableM
  | value
  | valueok
  | typexpr
  | typexprn
deriving DecidableEq, Repr

/-- An operand: the per-expression checking result (mode, originating node,
type, optional constant value — nil in Go when not constant). -/
structure Operand where
  mode : OperandMode
  expr : Expr
  typ : Ty
  val : Option Value
deriving DecidableEq, Repr

/-- Modelled from the spec: operand.isNil — the operand is the predeclared
untyped nil. -/
def Operand.isNil (x : Operand) : Bool := x.typ == Typ .UntypedNil

/-- An entry of the untyped-constant map (exprInfo of the checker):
shift-lhs flag, recorded untyped basic kind, constant value if any. -/
structure ExprInfo where
  isLhs : Bool
  typ : BasicKind
  val : Option Value
deriving DecidableEq, Repr

/-- The diagnostics the modelled code can raise, one tag per distinct
error site. -/
inductive ErrKind
  | invalidOperation
  | invalidASTErr
  | overflows
  | cannotConvert
  | shiftedOperandMustBeInteger
  | stupidShift
  | divisionByZero
  | mismatchedTypes
  | invalidArgument
  | indexOutOfBounds
  | duplicateIndex
  | cannotUseAsValue
  | missingKey
  | cannotUseAsKey
  | duplicateKey
  | invertedRange
  | cannotSlice
  | sliceNotAddressable
deriving DecidableEq, Repr

/-- The mutable checker state the analyzed functions touch: the untyped map
(check.untyped), the accumulated diagnostics, and the sequence of
Context.Expr type-finalization notifications issued so far. -/
structure CheckState where
  untyped : List (Expr × ExprInfo)
  errs : List ErrKind
  notifs : List (Expr × Ty × Option Value)
deriving DecidableEq, Repr

/-- Record one diagnostic. -/
def addErr (s : CheckState) (e : ErrKind) : CheckState :=
  { s with errs := s.errs ++ [e] }

/-- Lookup in the untyped map (check.untyped[x]). -/
def lookupU : List (Expr × ExprInfo) → Expr → Option ExprInfo
  | [], _ => none
  | (k, v) :: r, x => if k = x then some v else lookupU r x

/-- Store in the untyped map (check.untyped[x] = info). -/
def setU : List (Expr × ExprInfo) → Expr → ExprInfo → List (Expr × ExprInfo)
  | [], x, i => [(x, i)]
  | (k, v) :: r, x, i => if k = x then (x, i) :: r else (k, v) :: setU r x i

/-- Remove from the untyped map (delete(check.untyped, x)). -/
def deleteU : List (Expr × ExprInfo) → Expr → List (Expr × ExprInfo)
  | [], _ => []
  | (k, v) :: r, x => if k = x then deleteU r x else (k, v) :: deleteU r x

/-- Number of notifications issued for node x. -/
def notifCount (x : Expr) (l : List (Expr × Ty × Option Value)) : Nat :=
  List.countP (fun n => n.1 == x) l

/-- Number of diagnostics of a given kind. -/
def errCount (k : ErrKind) (l : List ErrKind) : Nat := List.count k l

/-- The shared tail of updateExprType (expr.go lines 370-394): if the new
type is non-final and still untyped, only re-record the entry; otherwise
remove the entry and either raise the shifted-operand-must-be-integer error
(when the node was the lhs of a non-constant shift and the final type is not
integer) or fire the Context.Expr notification. -/
def finishUpdate (x : Expr) (typ : Ty) (final : Bool) (old : ExprInfo)
    (s : CheckState) : CheckState :=
  if ¬ final = true ∧ isUntyped typ = true then
    { s with untyped := setU s.untyped x { old with typ := asBasic typ.underlying } }
  else
    let s1 := { s with untyped := deleteU s.untyped x }
    if old.isLhs = true ∧ ¬ isInteger typ = true then
      addErr s1 .shiftedOperandMustBeInteger
    else
      { s1 with notifs := s1.notifs ++ [(x, typ, old.val)] }

/-- updateExprType, translated from expr.go lines 295-394.  A node without a
tracked entry is a no-op; the `otherE` shapes return without doing anything
(debug disabled); parenthesized, unary (unless already folded to a constant)
and binary nodes (excluding comparisons, and only the left operand for
shifts) propagate the type to their operands first; then the shared tail
runs with the entry read at the start. -/
def updateExprType (x : Expr) (typ : Ty) (final : Bool) (s : CheckState) :
    CheckState :=
  match lookupU s.untyped x with
  | none => s
  | some old =>
    match x with
    | .otherE _ => s
    | .ident _ => finishUpdate x typ final old s
    | .basicLit _ => finishUpdate x typ final old s
    | .selector _ => finishUpdate x typ final old s
    | .call _ => finishUpdate x typ final old s
    | .paren inner => finishUpdate x typ final old (updateExprType inner typ final s)
    | .unaryE _ inner =>
      let s1 := if old.val ≠ none then s else updateExprType inner typ final s
      finishUpdate x typ final old s1
    | .binaryE op a b =>
      let s1 :=
        if old.val ≠ none then s
        else if isComparison op then s
        else if isShift op then updateExprType a typ final s
        else updateExprType b typ final (updateExprType a typ final s)
      finishUpdate x typ final old s1

/-- isRepresentable (checker method), translated from expr.go lines 268-283:
a constant operand must be representable in a (typed) basic target kind;
failure reports overflow (numeric/numeric) or a conversion error and
invalidates the operand. -/
def isRepresentable (ctxt : Context) (x : Operand) (tk : BasicKind)
    (s : CheckState) : Operand × CheckState :=
  if x.mode ≠ .constantM ∨ isUntypedK tk = true then (x, s)
  else if isRepresentableConst (x.val.getD .unknown) ctxt tk = false then
    let e := if isNumeric x.typ = true ∧ isNumericK tk = true then
      ErrKind.overflows else ErrKind.cannotConvert
    ({ x with mode := .invalid }, addErr s e)
  else (x, s)

/-- The error exit (goto Error) of convertUntyped: report "cannot convert"
and invalidate the operand. -/
def convertError (x : Operand) (s : CheckState) : Operand × CheckState :=
  ({ x with mode := .invalid }, addErr s .cannotConvert)

/-- The success exit of convertUntyped: adopt the (possibly adjusted)
target type and propagate it as final. -/
def finishConvert (x : Operand) (target : Ty) (s : CheckState) :
    Operand × CheckState :=
  ({ x with typ := target }, updateExprType x.expr target true s)

/-- convertUntyped, translated from expr.go lines 397-468.  Untyped-to-
untyped conversion widens numeric kinds along increasing rank only; a typed
basic target goes through the representability check; interface targets
accept nil (kept untyped) or, when empty, any value at its default type;
the nilable composite targets accept only nil (kept untyped); anything
else errors.  (The `case nil` of the Go switch guards against previous
type errors and has no counterpart in the total model.) -/
def convertUntyped (ctxt : Context) (x : Operand) (target : Ty)
    (s : CheckState) : Operand × CheckState :=
  if x.mode = .invalid ∨ isUntyped x.typ = false then (x, s)
  else if isUntyped target = true then
    let xkind := asBasic x.typ
    let tkind := asBasic target
    if isNumeric x.typ = true ∧ isNumeric target = true then
      if kindCode xkind < kindCode tkind then
        ({ x with typ := target }, updateExprType x.expr target false s)
      else (x, s)
    else if xkind ≠ tkind then convertError x s
    else (x, s)
  else
    match target.underlying with
    | .basic bk =>
      let r := isRepresentable ctxt x bk s
      if r.1.mode = .invalid then r
      else finishConvert r.1 target r.2
    | .iface empt =>
      if x.isNil = false ∧ empt = false then convertError x s
      else if x.isNil = true then finishConvert x (Typ .UntypedNil) s
      else if empt = false then convertError x s
      else finishConvert x (defaultType x.typ) s
    | .pointer _ | .signatureT | .slice _ | .mapT _ _ | .chanT _ =>
      if x.isNil = false then convertError x s
      else finishConvert x (Typ .UntypedNil) s
    | _ => convertError x s

/-- Modelled from the spec: operand assignability (x.isAssignableTo;
operand.go is not among the analyzed sources).  A value is assignable to T
when the types are identical; an untyped constant when it is representable
in a basic T; an untyped nil when T is nilable; an untyped non-constant
boolean when T is boolean. -/
def Operand.isAssignableTo (ctxt : Context) (x : Operand) (T : Ty) : Bool :=
  IsIdentical x.typ T ||
  (isUntyped x.typ &&
    (match T.underlying with
     | .basic bk =>
       (match x.val with
        | some v => isRepresentableConst v ctxt bk
        | none => isBoolean x.typ && isBooleanK bk)
     | _ => x.isNil && hasNil T))

/-- The validity test of comparison (expr.go lines 473-485): one operand
assignable to the other, equality only for comparable types or nil against
a nilable type, ordering only for ordered types. -/
def comparisonValid (ctxt : Context) (x y : Operand) (op : Token) : Bool :=
  (x.isAssignableTo ctxt y.typ || y.isAssignableTo ctxt x.typ) &&
  (match op with
   | .EQL | .NEQ =>
     isComparable x.typ || (x.isNil && hasNil y.typ) || (y.isNil && hasNil x.typ)
   | .LSS | .LEQ | .GTR | .GEQ => isOrdered x.typ
   | _ => false)

/-- comparison, translated from expr.go lines 470-510: invalid comparisons
error out; a constant pair folds a boolean without touching the recorded
operand types; otherwise both operands are finalized at their default types
and the mode becomes value; the result type is always untyped bool. -/
def comparison (ctxt : Context) (x y : Operand) (op : Token) (s : CheckState) :
    Operand × CheckState :=
  if comparisonValid ctxt x y op = false then
    ({ x with mode := .invalid }, addErr s .invalidOperation)
  else
    let r :=
      if x.mode = .constantM ∧ y.mode = .constantM then
        ({ x with val := some (.boolV (Value.compareOp (x.val.getD .unknown) op
          (y.val.getD .unknown))) }, s)
      else
        let s1 := updateExprType x.expr (defaultType x.typ) true s
        let s2 := updateExprType y.expr (defaultType y.typ) true s1
        ({ x with mode := .value }, s2)
    ({ r.1 with typ := Typ .UntypedBool }, r.2)

/-- The trailing non-constant-shift checks of shift (expr.go lines
583-592): the lhs must be an integer; the result is a value. -/
def shiftRest (x : Operand) (s : CheckState) : Operand × CheckState :=
  if isInteger x.typ = false then
    ({ x with mode := .invalid }, addErr s .invalidOperation)
  else ({ x with mode := .value }, s)

/-- The constant-lhs part of shift (expr.go lines 541-581), entered after
the rhs has been validated: with a constant rhs, an untyped lhs becomes
untyped int, counts not expressible as uint64 or at least 1024 (the
stupidShift bound) fail, otherwise the shift folds exactly; with a
non-constant rhs an untyped constant lhs is marked as shift lhs in the
untyped map (deferred finalization) and the result is a value. -/
def shiftConst (untypedx : Bool) (x y : Operand) (op : Token)
    (s : CheckState) : Operand × CheckState :=
  if x.mode = .constantM then
    if y.mode = .constantM then
      let x1 := if untypedx = true then { x with typ := Typ .UntypedInt } else x
      match Value.uint64Val (y.val.getD .unknown) with
      | none => ({ x1 with mode := .invalid }, addErr s .stupidShift)
      | some cnt =>
        if 1024 ≤ cnt then ({ x1 with mode := .invalid }, addErr s .stupidShift)
        else
          ({ x1 with val := some (Value.shiftOp (x1.val.getD .unknown) op cnt) }, s)
    else
      if untypedx = true then
        let s1 :=
          match lookupU s.untyped x.expr with
          | some info =>
            { s with untyped := setU s.untyped x.expr { info with isLhs := true } }
          | none => s
        ({ x with mode := .value }, s1)
      else shiftRest x s
  else shiftRest x s

/-- shift, translated from expr.go lines 512-592.  The lhs must be integer
or untyped and representable as untyped int; the rhs must be an unsigned
integer or untyped-convertible to untyped int (a failed conversion
invalidates the whole shift).  isRepresentableConst is called with a nil
context in the source for kind UntypedInt, which never consults it; the
context is simply passed through here. -/
def shift (ctxt : Context) (x y : Operand) (op : Token) (s : CheckState) :
    Operand × CheckState :=
  let untypedx := isUntyped x.typ
  if isInteger x.typ = false ∧ (untypedx = false ∨
      isRepresentableConst (x.val.getD .unknown) ctxt .UntypedInt = false) then
    ({ x with mode := .invalid }, addErr s .invalidOperation)
  else if isInteger y.typ = true ∧ isUnsigned y.typ = true then
    shiftConst untypedx x y op s
  else if isUntyped y.typ = true then
    let r := convertUntyped ctxt y (Typ .UntypedInt) s
    if r.1.mode = .invalid then ({ x with mode := .invalid }, r.2)
    else shiftConst untypedx x r.1 op r.2
  else ({ x with mode := .invalid }, addErr s .invalidOperation)

/-- The binary operator applicability table (binaryOpPredicates, expr.go
lines 594-608); none for tokens outside the table (check.op reports an
invalid AST for those). -/
def binaryPred (op : Token) (t : Ty) : Option Bool :=
  match op with
  | .ADD => some (isNumeric t || isString t)
  | .SUB | .MUL | .QUO => some (isNumeric t)
  | .REM | .AND | .OR | .XOR | .AND_NOT => some (isInteger t)
  | .LAND | .LOR => some (isBoolean t)
  | _ => none

/-- check.op (expr.go lines 76-87) applied to the binary table. -/
def opCheck (x : Operand) (op : Token) (s : CheckState) : Bool × CheckState :=
  match binaryPred op x.typ with
  | some true => (true, s)
  | some false => (false, addErr s .invalidOperation)
  | none => (false, addErr s .invalidASTErr)

/-- binary, translated from expr.go lines 610-681, starting after the two
operand sub-checks (check.expr on the operand expressions is the recursive
dispatcher; its resulting operands are the inputs here).  Shifts and
comparisons are dispatched; otherwise both operands are converted toward
each other, must end up identical, the operator must apply, division or
remainder by a constant zero errors at check time, and a constant pair is
folded (with integer division forced for integer operands) and re-checked
for representability. -/
def binary (ctxt : Context) (x y : Operand) (op : Token) (s : CheckState) :
    Operand × CheckState :=
  if x.mode = .invalid then (x, s)
  else if y.mode = .invalid then ({ x with mode := .invalid, expr := y.expr }, s)
  else if isShift op then shift ctxt x y op s
  else
    let rx := convertUntyped ctxt x y.typ s
    if rx.1.mode = .invalid then rx
    else
      let ry := convertUntyped ctxt y rx.1.typ rx.2
      if ry.1.mode = .invalid then ({ rx.1 with mode := .invalid }, ry.2)
      else if isComparison op then comparison ctxt rx.1 ry.1 op ry.2
      else if IsIdentical rx.1.typ ry.1.typ = false then
        let s3 := if rx.1.typ ≠ Typ .Invalid ∧ ry.1.typ ≠ Typ .Invalid then
          addErr ry.2 .mismatchedTypes else ry.2
        ({ rx.1 with mode := .invalid }, s3)
      else
        let ro := opCheck rx.1 op ry.2
        if ro.1 = false then ({ rx.1 with mode := .invalid }, ro.2)
        else if (op = .QUO ∨ op = .REM) ∧ ry.1.mode = .constantM ∧
            Value.signv (ry.1.val.getD .unknown) = 0 then
          ({ rx.1 with mode := .invalid }, addErr ro.2 .divisionByZero)
        else if rx.1.mode = .constantM ∧ ry.1.mode = .constantM then
          let typ := asBasic rx.1.typ.underlying
          let op1 := if op = .QUO ∧ isIntegerK typ = true then Token.QUO_ASSIGN
            else op
          let x2 := { rx.1 with val := some (Value.binOp
            (rx.1.val.getD .unknown) op1 (ry.1.val.getD .unknown)) }
          isRepresentable ctxt x2 typ ro.2
        else ({ rx.1 with mode := .value }, ro.2)

/-- Modelled from the spec: check.assignment (assignments.go is not among
the analyzed sources): an untyped operand is first converted to the target
type, then assignability is checked; the boolean reports success. -/
def assignmentCheck (ctxt : Context) (x : Operand) (T : Ty) (s : CheckState) :
    (Operand × Bool) × CheckState :=
  if x.mode = .invalid then ((x, false), s)
  else
    let r := convertUntyped ctxt x T s
    if r.1.mode = .invalid then ((r.1, false), r.2)
    else ((r.1, r.1.isAssignableTo ctxt T), r.2)

/-- index, translated from expr.go lines 685-717: checks an index/size
operand (the result of check.expr on the argument expression); length ≥ 0
is an upper bound.  An untyped constant must be representable as int; the
index must be of integer type; a constant index must be non-negative,
expressible as int64 (exact.Int64Val returns an unspecified value with
ok=false for larger constants; 0 here) and below the bound. -/
def index (ctxt : Context) (x : Operand) (length : Int) (s : CheckState) :
    (Int × Bool) × CheckState :=
  let r := convertUntyped ctxt x (Typ .Int) s
  if r.1.mode = .invalid then ((0, false), r.2)
  else if isInteger r.1.typ = false then ((0, false), addErr r.2 .invalidArgument)
  else if r.1.mode = .constantM then
    if Value.signv (r.1.val.getD .unknown) < 0 then
      ((0, false), addErr r.2 .invalidArgument)
    else
      match Value.int64Val (r.1.val.getD .unknown) with
      | none => ((0, false), addErr r.2 .indexOutOfBounds)
      | some i =>
        if 0 ≤ length ∧ length ≤ i then ((i, false), addErr r.2 .indexOutOfBounds)
        else ((i, true), r.2)
  else ((-1, true), r.2)

/-- An element of an array/slice composite literal: keyed (the key operand
is the checked kv.Key expression) or positional; the value operand is the
checked element expression. -/
inductive CompElt
  | kv (key : Operand) (val : Operand)
  | plain (val : Operand)
deriving DecidableEq, Repr

/-- The loop state of indexedElts: seen indices, the running index, the
running maximum, the checker state. -/
structure EltLoopState where
  visited : List Int
  index : Int
  maxv : Int
  cs : CheckState
deriving DecidableEq, Repr

/-- Wrap-around of Go's int64 arithmetic (two's complement), used where
the source increments the int64 running index (expr.go:726,752). -/
def int64wrap (z : Int) : Int :=
  (z + 9223372036854775808) % 18446744073709551616 - 9223372036854775808

/-- One iteration of the indexedElts loop (expr.go lines 727-763): a keyed
element overrides the running index when its key is valid; a positional
element uses the running index, which must be below a declared length;
a valid index already seen reports a duplicate; the index then advances
with Go's wrapping int64 increment and the maximum is updated; finally the
element value is checked against the element type. -/
def indexedEltsStep (ctxt : Context) (typ : Ty) (length : Int) (e : CompElt)
    (st : EltLoopState) : EltLoopState :=
  let p : Bool × Int × Operand × CheckState :=
    match e with
    | .kv key v =>
      let r := index ctxt key length st.cs
      if r.1.2 = true then
        (true, if 0 ≤ r.1.1 then r.1.1 else st.index, v, r.2)
      else (false, st.index, v, r.2)
    | .plain v =>
      if 0 ≤ length ∧ length ≤ st.index then
        (false, st.index, v, addErr st.cs .indexOutOfBounds)
      else (true, st.index, v, st.cs)
  let validIndex := p.1
  let idx := p.2.1
  let eval := p.2.2.1
  let cs1 := p.2.2.2
  let pair : List Int × CheckState :=
    if validIndex = true then
      (idx :: st.visited,
        if st.visited.contains idx then addErr cs1 .duplicateIndex else cs1)
    else (st.visited, cs1)
  let index1 := int64wrap (idx + 1)
  let maxv1 := if st.maxv < index1 then index1 else st.maxv
  let ra := assignmentCheck ctxt eval typ pair.2
  let cs2 := if ra.1.2 = false ∧ ra.1.1.mode ≠ .invalid then
    addErr ra.2 .cannotUseAsValue else ra.2
  ⟨pair.1, index1, maxv1, cs2⟩

/-- The loop of indexedElts over the element list. -/
def indexedEltsLoop (ctxt : Context) (typ : Ty) (length : Int) :
    List CompElt → EltLoopState → EltLoopState
  | [], st => st
  | e :: rest, st =>
    indexedEltsLoop ctxt typ length rest (indexedEltsStep ctxt typ length e st)

/-- indexedElts, translated from expr.go lines 724-765: checks the elements
of an array/slice composite literal and returns the length of the literal
(maximum index value + 1). -/
def indexedElts (ctxt : Context) (elts : List CompElt) (typ : Ty)
    (length : Int) (s : CheckState) : Int × CheckState :=
  let st := indexedEltsLoop ctxt typ length elts ⟨[], 0, 0, s⟩
  (st.maxv, st.cs)

/-- The integer value of a (constant integer) key operand. -/
def keyVal (k : Operand) : Int :=
  match k.val with
  | some (.intV z) => z
  | _ => 0

/-- The sequence of indices referenced by the elements of an array/slice
literal, from a given running index: a keyed element references its key, a
positional element the running index; the next running index is one past
the referenced index. -/
def eltRefs : List CompElt → Int → List Int
  | [], _ => []
  | .kv k _ :: r, _ => keyVal k :: eltRefs r (keyVal k + 1)
  | .plain _ :: r, idx => idx :: eltRefs r (idx + 1)

/-- A well-formed key operand for an array/slice literal with declared
length `length` (negative meaning none): a typed int constant whose value
is non-negative, within int64, and within the declared length. -/
def goodKey (k : Operand) (length : Int) : Bool :=
  k.mode == .constantM && k.typ == Typ .Int &&
  (match k.val with
   | some (.intV z) =>
     decide (0 ≤ z) && decide (z ≤ 9223372036854775807) &&
     (decide (length < 0) || decide (z < length))
   | _ => false)

/-- Every element of the literal is in range: keyed elements have good
keys, positional elements stay below a declared length, and every
referenced index stays below 2^63 - 1 so the int64 running-index increment
after the element does not wrap. -/
def goodElts : List CompElt → Int → Int → Bool
  | [], _, _ => true
  | .kv k _ :: r, _, length =>
    goodKey k length && decide (keyVal k ≤ 9223372036854775806) &&
      goodElts r (keyVal k + 1) length
  | .plain _ :: r, idx, length =>
    decide (0 ≤ idx) && decide (idx ≤ 9223372036854775806) &&
      (decide (length < 0) || decide (idx < length)) &&
      goodElts r (idx + 1) length

/-- Number of duplicate hits along a traversal that accumulates seen
values, mirroring the visited-set discipline of the element loops. -/
def dupCount {α : Type} [DecidableEq α] : List α → List α → Nat
  | _, [] => 0
  | vis, a :: r => (if vis.contains a then 1 else 0) + dupCount (a :: vis) r

/-- An element of a map composite literal: a key:value pair (with the
checked key and value operands) or a bare value. -/
inductive MapElt
  | kv (key : Operand) (val : Operand)
  | bare (val : Operand)
deriving DecidableEq, Repr

/-- The element loop of the map composite-literal case (expr.go lines
963-991): a bare value reports a missing key; the key must be assignable
to the map's key type; a constant key whose exact value was already seen
reports a duplicate and skips the element; otherwise the value is checked
against the map's element type (the element loop carries the visited
exact-value set). -/
def mapLitLoop (ctxt : Context) (keyT eltT : Ty) :
    List MapElt → List Value → CheckState → CheckState
  | [], _, s => s
  | .bare _ :: rest, visited, s =>
    mapLitLoop ctxt keyT eltT rest visited (addErr s .missingKey)
  | .kv k v :: rest, visited, s =>
    let rk := assignmentCheck ctxt k keyT s
    if rk.1.2 = false then
      let s1 := if rk.1.1.mode ≠ .invalid then addErr rk.2 .cannotUseAsKey
        else rk.2
      mapLitLoop ctxt keyT eltT rest visited s1
    else
      let x := rk.1.1
      if x.mode = .constantM ∧ visited.contains (x.val.getD .unknown) = true then
        mapLitLoop ctxt keyT eltT rest visited (addErr rk.2 .duplicateKey)
      else
        let visited1 := if x.mode = .constantM then
          (x.val.getD .unknown) :: visited else visited
        let rv := assignmentCheck ctxt v eltT rk.2
        let s2 := if rv.1.2 = false ∧ rv.1.1.mode ≠ .invalid then
          addErr rv.2 .cannotUseAsValue else rv.2
        mapLitLoop ctxt keyT eltT rest visited1 s2

/-- The Map case of the composite-literal checker (expr.go lines 962-991)
with the shared tail (lines 998-999) that gives the literal operand the
declared map type and value mode; a non-map underlying type takes the
error exit of the dispatcher (mode invalid; the type stays at the Invalid
sentinel set by the entry initialization). -/
def compositeLitMap (ctxt : Context) (e : Expr) (typ : Ty)
    (elts : List MapElt) (s : CheckState) : Operand × CheckState :=
  match typ.deref.underlying with
  | .mapT keyT eltT =>
    let s1 := mapLitLoop ctxt keyT eltT elts [] s
    ({ mode := .value, expr := e, typ := typ, val := none }, s1)
  | _ =>
    ({ mode := .invalid, expr := e, typ := Typ .Invalid, val := none },
      addErr s .invalidOperation)

/-- Classification of the slice-expression base (expr.go lines 1086-1131):
either the computed constant length bound (+1 for slicing, -1 when
unknown) with the updated operand, or the error exit (cannot slice /
value not addressable). -/
inductive SlicePrep
  | ok (length : Int) (x : Operand)
  | bad (k : ErrKind)
deriving DecidableEq, Repr

/-- The base-type switch of the slice-expression case. -/
def slicePrep (x : Operand) : SlicePrep :=
  match x.typ.underlying with
  | .basic bk =>
    if isStringK bk = true then
      let length : Int := (if x.mode = .constantM then
        ((Value.strVal (x.val.getD .unknown)).length : Int) + 1 else -1)
      SlicePrep.ok length
        { x with
          mode := .value,
          typ := if bk = .UntypedString then Typ .String else x.typ }
    else .bad .cannotSlice
  | .array n elt =>
    if x.mode ≠ .variableM then .bad .sliceNotAddressable
    else .ok (n + 1) { x with typ := .slice elt }
  | .pointer b =>
    match b.underlying with
    | .array n elt => .ok (n + 1) { x with mode := .variableM, typ := .slice elt }
    | _ => .bad .cannotSlice
  | .slice _ => .ok (-1) { x with mode := .variableM }
  | _ => .bad .cannotSlice

/-- The slice-expression case of the dispatcher (expr.go lines 1078-1152),
over the checked base operand (mode not invalid) and the checked bound
operands (none for an absent bound).  The low bound defaults to 0, the
high bound to the known length; statically known inverted bounds are
reported but checking continues and the prepared operand is returned. -/
def sliceExprCheck (ctxt : Context) (x : Operand)
    (lowArg highArg : Option Operand) (s : CheckState) :
    Operand × CheckState :=
  match slicePrep x with
  | .bad k => ({ x with mode := .invalid }, addErr s k)
  | .ok length x1 =>
    let plo : Int × CheckState :=
      match lowArg with
      | none => (0, s)
      | some l =>
        let r := index ctxt l length s
        (if r.1.2 = true ∧ 0 ≤ r.1.1 then r.1.1 else 0, r.2)
    let phi : Int × CheckState :=
      match highArg with
      | none => (if 0 ≤ length then length else -1, plo.2)
      | some h =>
        let r := index ctxt h length plo.2
        (if r.1.2 = true ∧ 0 ≤ r.1.1 then r.1.1 else -1, r.2)
    let s2 := if 0 ≤ plo.1 ∧ 0 ≤ phi.1 ∧ phi.1 < plo.1 then
      addErr phi.2 .invertedRange else phi.2
    (x1, s2)

/-- Every element of a map literal is a key:value pair whose key is a
typed constant of the map's key type. -/
def goodMapElts (keyT : Ty) : List MapElt → Bool
  | [] => true
  | .kv k _ :: r => k.mode == .constantM && k.typ == keyT && goodMapElts keyT r
  | .bare _ :: _ => false

/-- The exact values of the keys of a map literal, in order. -/
def mapKeys : List MapElt → List Value
  | [] => []
  | .kv k _ :: r => (k.val.getD .unknown) :: mapKeys r
  | .bare _ :: r => mapKeys r

/-- C1: the integer representability ranges of isRepresentableConst. -/
theorem isRepresentableConst_integer_ranges (ctxt : Context)
    (hw : ctxt.wordBytes = 4 ∨ ctxt.wordBytes = 8) (v : Int) :
    (isRepresentableConst (.intV v) ctxt .Int8 = true ↔ -(2 ^ 7) ≤ v ∧ v ≤ 2 ^ 7 - 1) ∧
    (isRepresentableConst (.intV v) ctxt .Int16 = true ↔ -(2 ^ 15) ≤ v ∧ v ≤ 2 ^ 15 - 1) ∧
    (isRepresentableConst (.intV v) ctxt .Int32 = true ↔ -(2 ^ 31) ≤ v ∧ v ≤ 2 ^ 31 - 1) ∧
    (isRepresentableConst (.intV v) ctxt .Int64 = true ↔ -(2 ^ 63) ≤ v ∧ v ≤ 2 ^ 63 - 1) ∧
    (isRepresentableConst (.intV v) ctxt .Uint8 = true ↔ 0 ≤ v ∧ v ≤ 2 ^ 8 - 1) ∧
    (isRepresentableConst (.intV v) ctxt .Uint16 = true ↔ 0 ≤ v ∧ v ≤ 2 ^ 16 - 1) ∧
    (isRepresentableConst (.intV v) ctxt .Uint32 = true ↔ 0 ≤ v ∧ v ≤ 2 ^ 32 - 1) ∧
    (isRepresentableConst (.intV v) ctxt .Uint64 = true ↔ 0 ≤ v ∧ v ≤ 2 ^ 64 - 1) ∧
    (isRepresentableConst (.intV v) ctxt .Int = true ↔
      -(2 ^ (8 * ctxt.wordBytes - 1)) ≤ v ∧ v ≤ 2 ^ (8 * ctxt.wordBytes - 1) - 1) ∧
    (isRepresentableConst (.intV v) ctxt .Uint = true ↔
      0 ≤ v ∧ v ≤ 2 ^ (8 * ctxt.wordBytes) - 1) ∧
    (isRepresentableConst (.intV v) ctxt .Uintptr = true ↔
      0 ≤ v ∧ v ≤ 2 ^ (8 * ctxt.wordBytes) - 1) := by
  obtain ⟨wb⟩ := ctxt
  have hsize : ∀ m : Nat, v.natAbs.size ≤ m ↔ v.natAbs < 2 ^ m := fun m => Nat.size_le
  rcases hw with hw | hw <;> simp only at hw <;> subst hw <;>
    by_cases hv : -9223372036854775808 ≤ v ∧ v ≤ 9223372036854775807 <;>
    simp only [isRepresentableConst, Value.int64Val, Value.bitLen, Value.signv,
      Context.sizeof, hv, if_true, if_false, ite_true, ite_false,
      decide_eq_true_eq, Bool.and_eq_true, Int.sign_nonneg, ge_iff_le,
      hsize 32, hsize 64] <;>
    norm_num <;> omega

/-- Witness for C1 at a concrete context and value. -/
theorem isRepresentableConst_integer_ranges_witness :
    (isRepresentableConst (.intV 1000) ⟨8⟩ .Int8 = true ↔
      -(2 ^ 7) ≤ (1000 : Int) ∧ (1000 : Int) ≤ 2 ^ 7 - 1) :=
  (isRepresentableConst_integer_ranges ⟨8⟩ (Or.inr rfl) 1000).1

/-- C10: a constant of Unknown kind is reported representable as any basic
kind, so earlier-error constants never trigger their own diagnostics. -/
theorem unknown_const_always_representable (ctxt : Context) (as : BasicKind) :
    isRepresentableConst .unknown ctxt as = true := rfl

theorem size_ne_of_lt {y z : Expr} (h : y.size < z.size) : y ≠ z := by
  intro he
  subst he
  exact lt_irrefl _ h

theorem size_paren_lt (e : Expr) : e.size < (Expr.paren e).size := by
  simp [Expr.size]

theorem size_unary_lt (op : Token) (e : Expr) :
    e.size < (Expr.unaryE op e).size := by
  simp [Expr.size]

theorem size_binl_lt (op : Token) (a b : Expr) :
    a.size < (Expr.binaryE op a b).size := by
  simp [Expr.size]
  omega

theorem size_binr_lt (op : Token) (a b : Expr) :
    b.size < (Expr.binaryE op a b).size := by
  simp [Expr.size]
  omega

theorem updateExprType_eq_none (x : Expr) (typ : Ty) (final : Bool)
    (s : CheckState) (hl : lookupU s.untyped x = none) :
    updateExprType x typ final s = s := by
  cases x <;> rw [updateExprType.eq_def, hl]

theorem updateExprType_eq_ident (i : Nat) (typ : Ty) (final : Bool)
    (s : CheckState) (old : ExprInfo)
    (hl : lookupU s.untyped (.ident i) = some old) :
    updateExprType (.ident i) typ final s =
      finishUpdate (.ident i) typ final old s := by
  rw [updateExprType.eq_def, hl]

theorem updateExprType_eq_basicLit (i : Nat) (typ : Ty) (final : Bool)
    (s : CheckState) (old : ExprInfo)
    (hl : lookupU s.untyped (.basicLit i) = some old) :
    updateExprType (.basicLit i) typ final s =
      finishUpdate (.basicLit i) typ final old s := by
  rw [updateExprType.eq_def, hl]

theorem updateExprType_eq_selector (i : Nat) (typ : Ty) (final : Bool)
    (s : CheckState) (old : ExprInfo)
    (hl : lookupU s.untyped (.selector i) = some old) :
    updateExprType (.selector i) typ final s =
      finishUpdate (.selector i) typ final old s := by
  rw [updateExprType.eq_def, hl]

theorem updateExprType_eq_call (i : Nat) (typ : Ty) (final : Bool)
    (s : CheckState) (old : ExprInfo)
    (hl : lookupU s.untyped (.call i) = some old) :
    updateExprType (.call i) typ final s =
      finishUpdate (.call i) typ final old s := by
  rw [updateExprType.eq_def, hl]

theorem updateExprType_eq_other (i : Nat) (typ : Ty) (final : Bool)
    (s : CheckState) (old : ExprInfo)
    (hl : lookupU s.untyped (.otherE i) = some old) :
    updateExprType (.otherE i) typ final s = s := by
  rw [updateExprType.eq_def, hl]

theorem updateExprType_eq_paren (inner : Expr) (typ : Ty) (final : Bool)
    (s : CheckState) (old : ExprInfo)
    (hl : lookupU s.untyped (.paren inner) = some old) :
    updateExprType (.paren inner) typ final s =
      finishUpdate (.paren inner) typ final old
        (updateExprType inner typ final s) := by
  rw [updateExprType.eq_def, hl]

theorem updateExprType_eq_unary (op : Token) (inner : Expr) (typ : Ty)
    (final : Bool) (s : CheckState) (old : ExprInfo)
    (hl : lookupU s.untyped (.unaryE op inner) = some old) :
    updateExprType (.unaryE op inner) typ final s =
      finishUpdate (.unaryE op inner) typ final old
        (if old.val ≠ none then s else updateExprType inner typ final s) := by
  rw [updateExprType.eq_def, hl]

theorem updateExprType_eq_binary (op : Token) (a b : Expr) (typ : Ty)
    (final : Bool) (s : CheckState) (old : ExprInfo)
    (hl : lookupU s.untyped (.binaryE op a b) = some old) :
    updateExprType (.binaryE op a b) typ final s =
      finishUpdate (.binaryE op a b) typ final old
        (if old.val ≠ none then s
         else if isComparison op then s
         else if isShift op then updateExprType a typ final s
         else updateExprType b typ final (updateExprType a typ final s)) := by
  rw [updateExprType.eq_def, hl]

theorem lookupU_deleteU_ne (x z : Expr) (h : x ≠ z) :
    ∀ m : List (Expr × ExprInfo), lookupU (deleteU m x) z = lookupU m z := by
  intro m
  induction m with
  | nil => rfl
  | cons p r ih =>
    obtain ⟨k, v⟩ := p
    by_cases hk : k = x
    · subst hk
      simp [deleteU, lookupU, ih, h]
    · simp [deleteU, lookupU, hk, ih]

theorem lookupU_deleteU_self (x : Expr) :
    ∀ m : List (Expr × ExprInfo), lookupU (deleteU m x) x = none := by
  intro m
  induction m with
  | nil => rfl
  | cons p r ih =>
    obtain ⟨k, v⟩ := p
    by_cases hk : k = x
    · simp [deleteU, hk, ih]
    · simp [deleteU, lookupU, hk, ih]

theorem lookupU_setU_ne (x z : Expr) (i : ExprInfo) (h : x ≠ z) :
    ∀ m : List (Expr × ExprInfo), lookupU (setU m x i) z = lookupU m z := by
  intro m
  induction m with
  | nil => simp [setU, lookupU, h]
  | cons p r ih =>
    obtain ⟨k, v⟩ := p
    by_cases hk : k = x
    · subst hk
      simp [setU, lookupU, h]
    · simp [setU, lookupU, hk, ih]

theorem notifCount_append (x : Expr) (l1 l2 : List (Expr × Ty × Option Value)) :
    notifCount x (l1 ++ l2) = notifCount x l1 + notifCount x l2 := by
  simp [notifCount, List.countP_append]

theorem errCount_append (k : ErrKind) (l1 l2 : List ErrKind) :
    errCount k (l1 ++ l2) = errCount k l1 + errCount k l2 := by
  simp [errCount, List.count_append]

/-- Effects of the shared updateExprType tail when the type is final
(final flag set, or the type is no longer untyped). -/
theorem finishUpdate_final_spec (x : Expr) (typ : Ty) (final : Bool)
    (old : ExprInfo) (s : CheckState)
    (hf : final = true ∨ isUntyped typ = false) :
    lookupU (finishUpdate x typ final old s).untyped x = none ∧
    ((old.isLhs = true ∧ isInteger typ = false) →
      (finishUpdate x typ final old s).errs =
        s.errs ++ [.shiftedOperandMustBeInteger] ∧
      (finishUpdate x typ final old s).notifs = s.notifs) ∧
    (¬(old.isLhs = true ∧ isInteger typ = false) →
      (finishUpdate x typ final old s).errs = s.errs ∧
      (finishUpdate x typ final old s).notifs = s.notifs ++ [(x, typ, old.val)]) := by
  have hcond : ¬(¬ final = true ∧ isUntyped typ = true) := by
    rcases hf with hf | hf <;> simp [hf]
  unfold finishUpdate
  rw [if_neg hcond]
  by_cases hlhs : old.isLhs = true ∧ ¬ isInteger typ = true
  · rw [if_pos hlhs]
    refine ⟨lookupU_deleteU_self x s.untyped, fun _ => ⟨rfl, rfl⟩, fun hn => absurd ?_ hn⟩
    exact ⟨hlhs.1, by simpa using hlhs.2⟩
  · rw [if_neg hlhs]
    refine ⟨lookupU_deleteU_self x s.untyped, fun hb => absurd ?_ hlhs, fun _ => ⟨rfl, rfl⟩⟩
    exact ⟨hb.1, by simp [hb.2]⟩

/-- The tail only touches the entry and notifications of its own node. -/
theorem finishUpdate_other_node (x z : Expr) (typ : Ty) (final : Bool)
    (old : ExprInfo) (s : CheckState) (h : x ≠ z) :
    notifCount z (finishUpdate x typ final old s).notifs = notifCount z s.notifs ∧
    lookupU (finishUpdate x typ final old s).untyped z = lookupU s.untyped z := by
  unfold finishUpdate
  split
  · exact ⟨rfl, lookupU_setU_ne x z _ h s.untyped⟩
  · split
    · exact ⟨rfl, lookupU_deleteU_ne x z h s.untyped⟩
    · refine ⟨?_, lookupU_deleteU_ne x z h s.untyped⟩
      simp [notifCount_append, notifCount, h]

theorem finishUpdate_errCount_ge (k : ErrKind) (x : Expr) (typ : Ty)
    (final : Bool) (old : ExprInfo) (s : CheckState) :
    errCount k (finishUpdate x typ final old s).errs ≥ errCount k s.errs := by
  unfold finishUpdate
  split
  · exact le_refl _
  · split
    · simp [addErr, errCount_append]
    · exact le_refl _

/-- A call on a node of smaller size never notifies, nor touches the map
entry of, a larger node. -/
theorem updateExprType_other_node (t : Ty) (f : Bool) :
    ∀ (y : Expr) (s : CheckState) (z : Expr), y.size < z.size →
      notifCount z (updateExprType y t f s).notifs = notifCount z s.notifs ∧
      lookupU (updateExprType y t f s).untyped z = lookupU s.untyped z := by
  intro y
  induction y with
  | ident i =>
    intro s z h
    cases hl : lookupU s.untyped (Expr.ident i) with
    | none => rw [updateExprType_eq_none _ _ _ _ hl]; exact ⟨rfl, rfl⟩
    | some old =>
      rw [updateExprType_eq_ident _ _ _ _ _ hl]
      exact finishUpdate_other_node _ z t f old s (size_ne_of_lt h)
  | basicLit i =>
    intro s z h
    cases hl : lookupU s.untyped (Expr.basicLit i) with
    | none => rw [updateExprType_eq_none _ _ _ _ hl]; exact ⟨rfl, rfl⟩
    | some old =>
      rw [updateExprType_eq_basicLit _ _ _ _ _ hl]
      exact finishUpdate_other_node _ z t f old s (size_ne_of_lt h)
  | selector i =>
    intro s z h
    cases hl : lookupU s.untyped (Expr.selector i) with
    | none => rw [updateExprType_eq_none _ _ _ _ hl]; exact ⟨rfl, rfl⟩
    | some old =>
      rw [updateExprType_eq_selector _ _ _ _ _ hl]
      exact finishUpdate_other_node _ z t f old s (size_ne_of_lt h)
  | call i =>
    intro s z h
    cases hl : lookupU s.untyped (Expr.call i) with
    | none => rw [updateExprType_eq_none _ _ _ _ hl]; exact ⟨rfl, rfl⟩
    | some old =>
      rw [updateExprType_eq_call _ _ _ _ _ hl]
      exact finishUpdate_other_node _ z t f old s (size_ne_of_lt h)
  | otherE i =>
    intro s z h
    cases hl : lookupU s.untyped (Expr.otherE i) with
    | none => rw [updateExprType_eq_none _ _ _ _ hl]; exact ⟨rfl, rfl⟩
    | some old => rw [updateExprType_eq_other _ _ _ _ _ hl]; exact ⟨rfl, rfl⟩
  | paren inner ih =>
    intro s z h
    cases hl : lookupU s.untyped (Expr.paren inner) with
    | none => rw [updateExprType_eq_none _ _ _ _ hl]; exact ⟨rfl, rfl⟩
    | some old =>
      rw [updateExprType_eq_paren _ _ _ _ _ hl]
      have hi := ih s z (lt_trans (size_paren_lt inner) h)
      have hfin := finishUpdate_other_node (Expr.paren inner) z t f old
        (updateExprType inner t f s) (size_ne_of_lt h)
      exact ⟨hfin.1.trans hi.1, hfin.2.trans hi.2⟩
  | unaryE op inner ih =>
    intro s z h
    cases hl : lookupU s.untyped (Expr.unaryE op inner) with
    | none => rw [updateExprType_eq_none _ _ _ _ hl]; exact ⟨rfl, rfl⟩
    | some old =>
      rw [updateExprType_eq_unary _ _ _ _ _ _ hl]
      have hi : notifCount z (if old.val ≠ none then s
            else updateExprType inner t f s).notifs = notifCount z s.notifs ∧
          lookupU (if old.val ≠ none then s
            else updateExprType inner t f s).untyped z = lookupU s.untyped z := by
        split
        · exact ⟨rfl, rfl⟩
        · exact ih s z (lt_trans (size_unary_lt op inner) h)
      have hfin := finishUpdate_other_node (Expr.unaryE op inner) z t f old
        (if old.val ≠ none then s else updateExprType inner t f s)
        (size_ne_of_lt h)
      exact ⟨hfin.1.trans hi.1, hfin.2.trans hi.2⟩
  | binaryE op a b iha ihb =>
    intro s z h
    cases hl : lookupU s.untyped (Expr.binaryE op a b) with
    | none => rw [updateExprType_eq_none _ _ _ _ hl]; exact ⟨rfl, rfl⟩
    | some old =>
      rw [updateExprType_eq_binary _ _ _ _ _ _ _ hl]
      have hi : notifCount z (if old.val ≠ none then s
            else if isComparison op then s
            else if isShift op then updateExprType a t f s
            else updateExprType b t f (updateExprType a t f s)).notifs =
              notifCount z s.notifs ∧
          lookupU (if old.val ≠ none then s
            else if isComparison op then s
            else if isShift op then updateExprType a t f s
            else updateExprType b t f (updateExprType a t f s)).untyped z =
              lookupU s.untyped z := by
        split
        · exact ⟨rfl, rfl⟩
        · split
          · exact ⟨rfl, rfl⟩
          · split
            · exact iha s z (lt_trans (size_binl_lt op a b) h)
            · have h1 := iha s z (lt_trans (size_binl_lt op a b) h)
              have h2 := ihb (updateExprType a t f s) z
                (lt_trans (size_binr_lt op a b) h)
              exact ⟨h2.1.trans h1.1, h2.2.trans h1.2⟩
      have hfin := finishUpdate_other_node (Expr.binaryE op a b) z t f old
        (if old.val ≠ none then s
         else if isComparison op then s
         else if isShift op then updateExprType a t f s
         else updateExprType b t f (updateExprType a t f s))
        (size_ne_of_lt h)
      exact ⟨hfin.1.trans hi.1, hfin.2.trans hi.2⟩

/-- Diagnostics only accumulate during updateExprType. -/
theorem updateExprType_errCount_ge (t : Ty) (f : Bool) (k : ErrKind) :
    ∀ (y : Expr) (s : CheckState),
      errCount k (updateExprType y t f s).errs ≥ errCount k s.errs := by
  intro y
  induction y with
  | ident i =>
    intro s
    cases hl : lookupU s.untyped (Expr.ident i) with
    | none => rw [updateExprType_eq_none _ _ _ _ hl]
    | some old =>
      rw [updateExprType_eq_ident _ _ _ _ _ hl]
      exact finishUpdate_errCount_ge k _ t f old s
  | basicLit i =>
    intro s
    cases hl : lookupU s.untyped (Expr.basicLit i) with
    | none => rw [updateExprType_eq_none _ _ _ _ hl]
    | some old =>
      rw [updateExprType_eq_basicLit _ _ _ _ _ hl]
      exact finishUpdate_errCount_ge k _ t f old s
  | selector i =>
    intro s
    cases hl : lookupU s.untyped (Expr.selector i) with
    | none => rw [updateExprType_eq_none _ _ _ _ hl]
    | some old =>
      rw [updateExprType_eq_selector _ _ _ _ _ hl]
      exact finishUpdate_errCount_ge k _ t f old s
  | call i =>
    intro s
    cases hl : lookupU s.untyped (Expr.call i) with
    | none => rw [updateExprType_eq_none _ _ _ _ hl]
    | some old =>
      rw [updateExprType_eq_call _ _ _ _ _ hl]
      exact finishUpdate_errCount_ge k _ t f old s
  | otherE i =>
    intro s
    cases hl : lookupU s.untyped (Expr.otherE i) with
    | none => rw [updateExprType_eq_none _ _ _ _ hl]
    | some old => rw [updateExprType_eq_other _ _ _ _ _ hl]
  | paren inner ih =>
    intro s
    cases hl : lookupU s.untyped (Expr.paren inner) with
    | none => rw [updateExprType_eq_none _ _ _ _ hl]
    | some old =>
      rw [updateExprType_eq_paren _ _ _ _ _ hl]
      exact le_trans (ih s)
        (finishUpdate_errCount_ge k _ t f old (updateExprType inner t f s))
  | unaryE op inner ih =>
    intro s
    cases hl : lookupU s.untyped (Expr.unaryE op inner) with
    | none => rw [updateExprType_eq_none _ _ _ _ hl]
    | some old =>
      rw [updateExprType_eq_unary _ _ _ _ _ _ hl]
      refine le_trans ?_ (finishUpdate_errCount_ge k _ t f old _)
      split
      · exact le_refl _
      · exact ih s
  | binaryE op a b iha ihb =>
    intro s
    cases hl : lookupU s.untyped (Expr.binaryE op a b) with
    | none => rw [updateExprType_eq_none _ _ _ _ hl]
    | some old =>
      rw [updateExprType_eq_binary _ _ _ _ _ _ _ hl]
      refine le_trans ?_ (finishUpdate_errCount_ge k _ t f old _)
      split
      · exact le_refl _
      · split
        · exact le_refl _
        · split
          · exact iha s
          · exact le_trans (iha s) (ihb (updateExprType a t f s))

/-- Main behavior of updateExprType once the type is final: the entry is
removed, and either the shift-lhs integer error fires (with no notification
for the node) or the notification fires exactly once for the node. -/
theorem updateExprType_spec (x : Expr) (typ : Ty) (final : Bool)
    (s : CheckState) (old : ExprInfo)
    (hl : lookupU s.untyped x = some old) (ht : trackable x = true)
    (hf : final = true ∨ isUntyped typ = false) :
    lookupU (updateExprType x typ final s).untyped x = none ∧
    ((old.isLhs = true ∧ isInteger typ = false) →
      errCount .shiftedOperandMustBeInteger (updateExprType x typ final s).errs ≥
        errCount .shiftedOperandMustBeInteger s.errs + 1 ∧
      notifCount x (updateExprType x typ final s).notifs =
        notifCount x s.notifs) ∧
    (¬(old.isLhs = true ∧ isInteger typ = false) →
      notifCount x (updateExprType x typ final s).notifs =
        notifCount x s.notifs + 1 ∧
      (x, typ, old.val) ∈ (updateExprType x typ final s).notifs) := by
  have hone : errCount ErrKind.shiftedOperandMustBeInteger
      [ErrKind.shiftedOperandMustBeInteger] = 1 := rfl
  have key : ∀ s1 : CheckState,
      notifCount x s1.notifs = notifCount x s.notifs →
      errCount .shiftedOperandMustBeInteger s1.errs ≥
        errCount .shiftedOperandMustBeInteger s.errs →
      lookupU (finishUpdate x typ final old s1).untyped x = none ∧
      ((old.isLhs = true ∧ isInteger typ = false) →
        errCount .shiftedOperandMustBeInteger (finishUpdate x typ final old s1).errs ≥
          errCount .shiftedOperandMustBeInteger s.errs + 1 ∧
        notifCount x (finishUpdate x typ final old s1).notifs =
          notifCount x s.notifs) ∧
      (¬(old.isLhs = true ∧ isInteger typ = false) →
        notifCount x (finishUpdate x typ final old s1).notifs =
          notifCount x s.notifs + 1 ∧
        (x, typ, old.val) ∈ (finishUpdate x typ final old s1).notifs) := by
    intro s1 hn he
    obtain ⟨h1, h2, h3⟩ := finishUpdate_final_spec x typ final old s1 hf
    refine ⟨h1, fun hb => ?_, fun hb => ?_⟩
    · obtain ⟨he2, hn2⟩ := h2 hb
      refine ⟨?_, by rw [hn2, hn]⟩
      rw [he2, errCount_append, hone]
      omega
    · obtain ⟨he3, hn3⟩ := h3 hb
      have hsingle : notifCount x [(x, typ, old.val)] = 1 := by
        simp [notifCount]
      refine ⟨by rw [hn3, notifCount_append, hsingle, hn], ?_⟩
      rw [hn3]
      exact List.mem_append_right _ (by simp)
  cases x with
  | ident i =>
    rw [updateExprType_eq_ident _ _ _ _ _ hl]
    exact key s rfl (le_refl _)
  | basicLit i =>
    rw [updateExprType_eq_basicLit _ _ _ _ _ hl]
    exact key s rfl (le_refl _)
  | selector i =>
    rw [updateExprType_eq_selector _ _ _ _ _ hl]
    exact key s rfl (le_refl _)
  | call i =>
    rw [updateExprType_eq_call _ _ _ _ _ hl]
    exact key s rfl (le_refl _)
  | otherE i => simp [trackable] at ht
  | paren inner =>
    rw [updateExprType_eq_paren _ _ _ _ _ hl]
    exact key (updateExprType inner typ final s)
      (updateExprType_other_node typ final inner s _ (size_paren_lt inner)).1
      (updateExprType_errCount_ge typ final _ inner s)
  | unaryE op inner =>
    rw [updateExprType_eq_unary _ _ _ _ _ _ hl]
    refine key _ ?_ ?_
    · split
      · rfl
      · exact (updateExprType_other_node typ final inner s _
          (size_unary_lt op inner)).1
    · split
      · exact le_refl _
      · exact updateExprType_errCount_ge typ final _ inner s
  | binaryE op a b =>
    rw [updateExprType_eq_binary _ _ _ _ _ _ _ hl]
    refine key _ ?_ ?_
    · split
      · rfl
      · split
        · rfl
        · split
          · exact (updateExprType_other_node typ final a s _
              (size_binl_lt op a b)).1
          · exact ((updateExprType_other_node typ final b (updateExprType a typ final s) _
              (size_binr_lt op a b)).1).trans
              ((updateExprType_other_node typ final a s _ (size_binl_lt op a b)).1)
    · split
      · exact le_refl _
      · split
        · exact le_refl _
        · split
          · exact updateExprType_errCount_ge typ final _ a s
          · exact le_trans (updateExprType_errCount_ge typ final _ a s)
              (updateExprType_errCount_ge typ final _ b (updateExprType a typ final s))

/-- C2: updateExprType with a final type removes the tracked entry and
either raises the shifted-operand-must-be-integer error with no
finalization notification for the node (when the entry was flagged as a
shift lhs and the final type is not integer), or fires the finalization
notification exactly once for the node; an untracked node is a no-op. -/
theorem updateExprType_finalization (x : Expr) (typ : Ty) (final : Bool)
    (s : CheckState) :
    (lookupU s.untyped x = none → updateExprType x typ final s = s) ∧
    (∀ old, lookupU s.untyped x = some old → trackable x = true →
      (final = true ∨ isUntyped typ = false) →
      lookupU (updateExprType x typ final s).untyped x = none ∧
      ((old.isLhs = true ∧ isInteger typ = false) →
        errCount .shiftedOperandMustBeInteger (updateExprType x typ final s).errs ≥
          errCount .shiftedOperandMustBeInteger s.errs + 1 ∧
        notifCount x (updateExprType x typ final s).notifs =
          notifCount x s.notifs) ∧
      (¬(old.isLhs = true ∧ isInteger typ = false) →
        notifCount x (updateExprType x typ final s).notifs =
          notifCount x s.notifs + 1)) := by
  refine ⟨updateExprType_eq_none x typ final s, fun old hl ht hf => ?_⟩
  obtain ⟨h1, h2, h3⟩ := updateExprType_spec x typ final s old hl ht hf
  exact ⟨h1, h2, fun hb => (h3 hb).1⟩

/-- Witness for C2: a tracked identifier finalized at type int is removed
from the map and notified exactly once. -/
theorem updateExprType_finalization_witness :
    lookupU (updateExprType (.ident 0) (Typ .Int) true
      ⟨[(.ident 0, ⟨false, .UntypedInt, some (.intV 5)⟩)], [], []⟩).untyped
      (.ident 0) = none ∧
    notifCount (.ident 0) (updateExprType (.ident 0) (Typ .Int) true
      ⟨[(.ident 0, ⟨false, .UntypedInt, some (.intV 5)⟩)], [], []⟩).notifs =
      notifCount (.ident 0)
        (⟨[(.ident 0, ⟨false, .UntypedInt, some (.intV 5)⟩)], [], []⟩ :
          CheckState).notifs + 1 := by
  obtain ⟨h1, _h2, h3⟩ :=
    (updateExprType_finalization (.ident 0) (Typ .Int) true
      ⟨[(.ident 0, ⟨false, .UntypedInt, some (.intV 5)⟩)], [], []⟩).2
      ⟨false, .UntypedInt, some (.intV 5)⟩ rfl rfl (Or.inl rfl)
  exact ⟨h1, h3 (by simp)⟩

theorem convertUntyped_self_untypedInt (ctxt : Context) (y : Operand)
    (s : CheckState) (ht : y.typ = Typ .UntypedInt) (hm : y.mode ≠ .invalid) :
    convertUntyped ctxt y (Typ .UntypedInt) s = (y, s) := by
  simp [convertUntyped, ht, hm, isUntyped, asBasic, Ty.underlying, Typ,
    isNumeric, isNumericK, isIntegerK, isFloatK, isComplexK, isUntypedK,
    kindCode]

theorem shiftConst_count_spec (untypedx : Bool) (x y : Operand) (op : Token)
    (s : CheckState) (c : Int) (hx : x.mode = .constantM)
    (hy : y.mode = .constantM) (hyv : y.val = some (.intV c)) :
    (¬(0 ≤ c ∧ c < 1024) → shiftConst untypedx x y op s =
      ({ (if untypedx = true then { x with typ := Typ .UntypedInt } else x) with
          mode := .invalid }, addErr s .stupidShift)) ∧
    ((0 ≤ c ∧ c < 1024) → shiftConst untypedx x y op s =
      ({ (if untypedx = true then { x with typ := Typ .UntypedInt } else x) with
          val := some (Value.shiftOp (x.val.getD .unknown) op c.toNat) }, s)) := by
  have hval : (if untypedx = true then { x with typ := Typ .UntypedInt } else x).val
      = x.val := by split <;> rfl
  unfold shiftConst
  rw [if_pos hx, if_pos hy, hyv]
  simp only [Option.getD_some, Value.uint64Val]
  by_cases hc : (0 : Int) ≤ c ∧ c ≤ 18446744073709551615
  · rw [if_pos hc]
    dsimp only
    by_cases hcc : 1024 ≤ c.toNat
    · rw [if_pos hcc]
      exact ⟨fun _ => rfl, fun hlt => absurd hcc (by omega)⟩
    · rw [if_neg hcc]
      refine ⟨fun hbig => absurd ?_ hbig, fun _ => by rw [hval]⟩
      omega
  · rw [if_neg hc]
    dsimp only
    exact ⟨fun _ => rfl, fun hlt => absurd hc (by omega)⟩

theorem shift_dispatch (ctxt : Context) (x y : Operand) (op : Token)
    (s : CheckState)
    (hg1 : isInteger x.typ = true ∨ (isUntyped x.typ = true ∧
      isRepresentableConst (x.val.getD .unknown) ctxt .UntypedInt = true))
    (hg2 : (isInteger y.typ = true ∧ isUnsigned y.typ = true) ∨
      y.typ = Typ .UntypedInt)
    (hym : y.mode ≠ .invalid) :
    shift ctxt x y op s = shiftConst (isUntyped x.typ) x y op s := by
  have hcond1 : ¬(isInteger x.typ = false ∧ (isUntyped x.typ = false ∨
      isRepresentableConst (x.val.getD .unknown) ctxt .UntypedInt = false)) := by
    intro hco
    rcases hg1 with h | ⟨h1, h2⟩
    · rw [h] at hco
      exact absurd hco.1 (by simp)
    · rcases hco.2 with hh | hh
      · rw [h1] at hh
        exact absurd hh (by simp)
      · rw [h2] at hh
        exact absurd hh (by simp)
  rcases hg2 with ⟨h1, h2⟩ | ht
  · simp only [shift]
    rw [if_neg hcond1, if_pos ⟨h1, h2⟩]
  · have hyu : isUntyped y.typ = true := by
      rw [ht]
      rfl
    have hyns : ¬(isInteger y.typ = true ∧ isUnsigned y.typ = true) := by
      rw [ht]
      decide
    simp only [shift]
    rw [if_neg hcond1, if_neg hyns, if_pos hyu,
      convertUntyped_self_untypedInt ctxt y s ht hym]
    simp [hym]

/-- C5: a shift with both operands constant: a count not expressible as an
unsigned 64-bit value or at least 1024 always fails with the stupid-shift
diagnostic and an invalid result, regardless of the left operand's value;
a valid count below 1024 folds via exact arithmetic and an untyped left
operand becomes untyped int. -/
theorem shift_constant_count_bound (ctxt : Context) (x y : Operand)
    (op : Token) (s : CheckState) (c : Int)
    (hx : x.mode = .constantM) (hy : y.mode = .constantM)
    (hg1 : isInteger x.typ = true ∨ (isUntyped x.typ = true ∧
      isRepresentableConst (x.val.getD .unknown) ctxt .UntypedInt = true))
    (hg2 : (isInteger y.typ = true ∧ isUnsigned y.typ = true) ∨
      y.typ = Typ .UntypedInt)
    (hyv : y.val = some (.intV c)) :
    (¬(0 ≤ c ∧ c < 1024) →
      (shift ctxt x y op s).1.mode = .invalid ∧
      ErrKind.stupidShift ∈ (shift ctxt x y op s).2.errs) ∧
    ((0 ≤ c ∧ c < 1024) →
      (shift ctxt x y op s).1.val =
        some (Value.shiftOp (x.val.getD .unknown) op c.toNat) ∧
      (shift ctxt x y op s).1.mode = .constantM ∧
      (isUntyped x.typ = true → (shift ctxt x y op s).1.typ = Typ .UntypedInt) ∧
      (shift ctxt x y op s).2 = s) := by
  have hym : y.mode ≠ .invalid := by
    rw [hy]
    decide
  rw [shift_dispatch ctxt x y op s hg1 hg2 hym]
  obtain ⟨hbad, hgood⟩ := shiftConst_count_spec (isUntyped x.typ) x y op s c hx hy hyv
  constructor
  · intro h
    rw [hbad h]
    constructor
    · rfl
    · simp [addErr]
  · intro h
    rw [hgood h]
    refine ⟨rfl, ?_, ?_, rfl⟩
    · by_cases hu : isUntyped x.typ = true <;> simp [hu, hx]
    · intro hu
      simp [hu]

/-- Witness for C5: the constant shift 1 << 2000 fails with the
stupid-shift diagnostic. -/
theorem shift_constant_count_bound_witness :
    (shift ⟨8⟩ ⟨.constantM, .basicLit 0, Typ .UntypedInt, some (.intV 1)⟩
      ⟨.constantM, .basicLit 1, Typ .UntypedInt, some (.intV 2000)⟩ .SHL
      ⟨[(.basicLit 0, ⟨false, .UntypedInt, some (.intV 1)⟩)], [], []⟩).1.mode =
      .invalid ∧
    ErrKind.stupidShift ∈
      (shift ⟨8⟩ ⟨.constantM, .basicLit 0, Typ .UntypedInt, some (.intV 1)⟩
        ⟨.constantM, .basicLit 1, Typ .UntypedInt, some (.intV 2000)⟩ .SHL
        ⟨[(.basicLit 0, ⟨false, .UntypedInt, some (.intV 1)⟩)], [], []⟩).2.errs :=
  (shift_constant_count_bound ⟨8⟩
    ⟨.constantM, .basicLit 0, Typ .UntypedInt, some (.intV 1)⟩
    ⟨.constantM, .basicLit 1, Typ .UntypedInt, some (.intV 2000)⟩ .SHL
    ⟨[(.basicLit 0, ⟨false, .UntypedInt, some (.intV 1)⟩)], [], []⟩ 2000
    rfl rfl (Or.inr ⟨rfl, rfl⟩) (Or.inr rfl) rfl).1 (by omega)

theorem convertUntyped_noop_typed (ctxt : Context) (x : Operand)
    (target : Ty) (s : CheckState) (h : isUntyped x.typ = false) :
    convertUntyped ctxt x target s = (x, s) := by
  unfold convertUntyped
  rw [if_pos (Or.inr h)]

/-- C4: a division or remainder whose right operand is a constant zero is
rejected at check time: the division-by-zero diagnostic is issued and the
result operand is invalid (under the hypotheses that make the operands
otherwise well-formed: valid modes, typed identical types, applicable
operator). -/
theorem binary_division_by_zero (ctxt : Context) (x y : Operand) (op : Token)
    (s : CheckState) (v : Value)
    (hx : x.mode ≠ .invalid) (hy : y.mode ≠ .invalid)
    (hop : op = .QUO ∨ op = .REM)
    (hxt : isUntyped x.typ = false) (hyt : isUntyped y.typ = false)
    (hid : x.typ = y.typ)
    (hpred : binaryPred op x.typ = some true)
    (hyc : y.mode = .constantM) (hyv : y.val = some v)
    (hsign : Value.signv v = 0) :
    (binary ctxt x y op s).1.mode = .invalid ∧
    (binary ctxt x y op s).2.errs = s.errs ++ [ErrKind.divisionByZero] := by
  have hnshift : ¬ isShift op = true := by
    rcases hop with rfl | rfl <;> simp [isShift]
  have hncomp : ¬ isComparison op = true := by
    rcases hop with rfl | rfl <;> simp [isComparison]
  have hid2 : ¬ IsIdentical x.typ y.typ = false := by
    simp [IsIdentical, hid]
  have hsv : Value.signv (y.val.getD Value.unknown) = 0 := by
    rw [hyv]
    simpa using hsign
  have hco : (op = Token.QUO ∨ op = Token.REM) ∧
      y.mode = OperandMode.constantM ∧
      Value.signv (y.val.getD Value.unknown) = 0 := ⟨hop, hyc, hsv⟩
  simp only [binary]
  rw [if_neg hx, if_neg hy, if_neg hnshift,
    convertUntyped_noop_typed ctxt x y.typ s hxt]
  dsimp only
  rw [if_neg hx, convertUntyped_noop_typed ctxt y x.typ s hyt]
  dsimp only
  rw [if_neg hy, if_neg hncomp, if_neg hid2]
  dsimp only [opCheck]
  rw [hpred]
  dsimp only
  rw [if_neg (by simp), if_pos hco]
  exact ⟨rfl, rfl⟩

/-- Witness for C4: the constant expression 7 / 0 over typed ints errors
with division-by-zero and an invalid result. -/
theorem binary_division_by_zero_witness :
    (binary ⟨8⟩ ⟨.constantM, .basicLit 0, Typ .Int, some (.intV 7)⟩
      ⟨.constantM, .basicLit 1, Typ .Int, some (.intV 0)⟩ .QUO
      ⟨[], [], []⟩).1.mode = .invalid ∧
    (binary ⟨8⟩ ⟨.constantM, .basicLit 0, Typ .Int, some (.intV 7)⟩
      ⟨.constantM, .basicLit 1, Typ .Int, some (.intV 0)⟩ .QUO
      ⟨[], [], []⟩).2.errs = ([] : List ErrKind) ++ [ErrKind.divisionByZero] :=
  binary_division_by_zero ⟨8⟩
    ⟨.constantM, .basicLit 0, Typ .Int, some (.intV 7)⟩
    ⟨.constantM, .basicLit 1, Typ .Int, some (.intV 0)⟩ .QUO
    ⟨[], [], []⟩ (.intV 0) (by decide) (by decide) (Or.inl rfl) rfl rfl rfl
    rfl rfl rfl rfl

theorem finishUpdate_notifs_mem (x : Expr) (typ : Ty) (final : Bool)
    (old : ExprInfo) (s : CheckState) (n : Expr × Ty × Option Value)
    (h : n ∈ s.notifs) : n ∈ (finishUpdate x typ final old s).notifs := by
  unfold finishUpdate
  split
  · exact h
  · split
    · exact h
    · exact List.mem_append_left _ h

/-- Notifications only accumulate during updateExprType. -/
theorem updateExprType_notifs_mem (t : Ty) (f : Bool)
    (n : Expr × Ty × Option Value) :
    ∀ (y : Expr) (s : CheckState), n ∈ s.notifs →
      n ∈ (updateExprType y t f s).notifs := by
  intro y
  induction y with
  | ident i =>
    intro s h
    cases hl : lookupU s.untyped (Expr.ident i) with
    | none => rw [updateExprType_eq_none _ _ _ _ hl]; exact h
    | some old =>
      rw [updateExprType_eq_ident _ _ _ _ _ hl]
      exact finishUpdate_notifs_mem _ _ _ _ _ _ h
  | basicLit i =>
    intro s h
    cases hl : lookupU s.untyped (Expr.basicLit i) with
    | none => rw [updateExprType_eq_none _ _ _ _ hl]; exact h
    | some old =>
      rw [updateExprType_eq_basicLit _ _ _ _ _ hl]
      exact finishUpdate_notifs_mem _ _ _ _ _ _ h
  | selector i =>
    intro s h
    cases hl : lookupU s.untyped (Expr.selector i) with
    | none => rw [updateExprType_eq_none _ _ _ _ hl]; exact h
    | some old =>
      rw [updateExprType_eq_selector _ _ _ _ _ hl]
      exact finishUpdate_notifs_mem _ _ _ _ _ _ h
  | call i =>
    intro s h
    cases hl : lookupU s.untyped (Expr.call i) with
    | none => rw [updateExprType_eq_none _ _ _ _ hl]; exact h
    | some old =>
      rw [updateExprType_eq_call _ _ _ _ _ hl]
      exact finishUpdate_notifs_mem _ _ _ _ _ _ h
  | otherE i =>
    intro s h
    cases hl : lookupU s.untyped (Expr.otherE i) with
    | none => rw [updateExprType_eq_none _ _ _ _ hl]; exact h
    | some old => rw [updateExprType_eq_other _ _ _ _ _ hl]; exact h
  | paren inner ih =>
    intro s h
    cases hl : lookupU s.untyped (Expr.paren inner) with
    | none => rw [updateExprType_eq_none _ _ _ _ hl]; exact h
    | some old =>
      rw [updateExprType_eq_paren _ _ _ _ _ hl]
      exact finishUpdate_notifs_mem _ _ _ _ _ _ (ih s h)
  | unaryE op inner ih =>
    intro s h
    cases hl : lookupU s.untyped (Expr.unaryE op inner) with
    | none => rw [updateExprType_eq_none _ _ _ _ hl]; exact h
    | some old =>
      rw [updateExprType_eq_unary _ _ _ _ _ _ hl]
      refine finishUpdate_notifs_mem _ _ _ _ _ _ ?_
      split
      · exact h
      · exact ih s h
  | binaryE op a b iha ihb =>
    intro s h
    cases hl : lookupU s.untyped (Expr.binaryE op a b) with
    | none => rw [updateExprType_eq_none _ _ _ _ hl]; exact h
    | some old =>
      rw [updateExprType_eq_binary _ _ _ _ _ _ _ hl]
      refine finishUpdate_notifs_mem _ _ _ _ _ _ ?_
      split
      · exact h
      · split
        · exact h
        · split
          · exact iha s h
          · exact ihb (updateExprType a t f s) (iha s h)

/-- C6: a valid comparison always yields an operand of type untyped bool;
with two constant operands the boolean is folded exactly with no state
change (no re-typing of the operands); otherwise the result is a value and
both operand trees are finalized via updateExprType with final flag at
their default types, firing the pending finalization notifications. -/
theorem comparison_untyped_bool_result (ctxt : Context) (x y : Operand)
    (op : Token) (s : CheckState)
    (hvalid : comparisonValid ctxt x y op = true) :
    (comparison ctxt x y op s).1.typ = Typ .UntypedBool ∧
    ((x.mode = .constantM ∧ y.mode = .constantM) →
      (comparison ctxt x y op s).1.val =
        some (.boolV (Value.compareOp (x.val.getD .unknown) op
          (y.val.getD .unknown))) ∧
      (comparison ctxt x y op s).1.mode = .constantM ∧
      (comparison ctxt x y op s).2 = s) ∧
    (¬(x.mode = .constantM ∧ y.mode = .constantM) →
      (comparison ctxt x y op s).1.mode = .value ∧
      (comparison ctxt x y op s).2 =
        updateExprType y.expr (defaultType y.typ) true
          (updateExprType x.expr (defaultType x.typ) true s) ∧
      (∀ info, lookupU s.untyped x.expr = some info →
        trackable x.expr = true →
        ¬(info.isLhs = true ∧ isInteger (defaultType x.typ) = false) →
        (x.expr, defaultType x.typ, info.val) ∈
          (comparison ctxt x y op s).2.notifs) ∧
      (∀ info, lookupU (updateExprType x.expr (defaultType x.typ) true
          s).untyped y.expr = some info →
        trackable y.expr = true →
        ¬(info.isLhs = true ∧ isInteger (defaultType y.typ) = false) →
        (y.expr, defaultType y.typ, info.val) ∈
          (comparison ctxt x y op s).2.notifs)) := by
  have hnv : ¬ comparisonValid ctxt x y op = false := by
    simp [hvalid]
  unfold comparison
  rw [if_neg hnv]
  by_cases hconst : x.mode = .constantM ∧ y.mode = .constantM
  · rw [if_pos hconst]
    exact ⟨rfl, fun _ => ⟨rfl, hconst.1, rfl⟩, fun hn => absurd hconst hn⟩
  · rw [if_neg hconst]
    refine ⟨rfl, fun hc => absurd hc hconst, fun _ => ⟨rfl, rfl, ?_, ?_⟩⟩
    · intro info hinfo htr hok
      have h1 := updateExprType_spec x.expr (defaultType x.typ) true s info
        hinfo htr (Or.inl rfl)
      exact updateExprType_notifs_mem (defaultType y.typ) true _ y.expr _
        ((h1.2.2 hok).2)
    · intro info hinfo htr hok
      have h1 := updateExprType_spec y.expr (defaultType y.typ) true
        (updateExprType x.expr (defaultType x.typ) true s) info hinfo htr
        (Or.inl rfl)
      exact (h1.2.2 hok).2

/-- Witness for C6: comparing a variable int to a constant int yields
untyped bool, mode value. -/
theorem comparison_untyped_bool_result_witness :
    (comparison ⟨8⟩ ⟨.variableM, .ident 0, Typ .Int, none⟩
      ⟨.constantM, .basicLit 1, Typ .Int, some (.intV 3)⟩ .LSS
      ⟨[], [], []⟩).1.typ = Typ .UntypedBool ∧
    (comparison ⟨8⟩ ⟨.variableM, .ident 0, Typ .Int, none⟩
      ⟨.constantM, .basicLit 1, Typ .Int, some (.intV 3)⟩ .LSS
      ⟨[], [], []⟩).1.mode = .value := by
  obtain ⟨h1, _h2, h3⟩ := comparison_untyped_bool_result ⟨8⟩
    ⟨.variableM, .ident 0, Typ .Int, none⟩
    ⟨.constantM, .basicLit 1, Typ .Int, some (.intV 3)⟩ .LSS
    ⟨[], [], []⟩ (by decide)
  exact ⟨h1, (h3 (by decide)).1⟩

/-- C9 counterexample: after a shift error the operand mode is invalid but
its type remains float64, not the Invalid sentinel, so the second half of
the claimed invariant fails on the code. -/
theorem invalid_mode_stale_type_counterexample :
    (shift ⟨8⟩ ⟨.value, .ident 0, Typ .Float64, none⟩
      ⟨.constantM, .basicLit 1, Typ .UntypedInt, some (.intV 1)⟩ .SHL
      ⟨[], [], []⟩).1.mode = .invalid ∧
    (shift ⟨8⟩ ⟨.value, .ident 0, Typ .Float64, none⟩
      ⟨.constantM, .basicLit 1, Typ .UntypedInt, some (.intV 1)⟩ .SHL
      ⟨[], [], []⟩).1.typ ≠ Typ .Invalid := by
  decide

theorem finishUpdate_nonfinal_untyped_errs (x : Expr) (typ : Ty)
    (old : ExprInfo) (s : CheckState) (h : isUntyped typ = true) :
    (finishUpdate x typ false old s).errs = s.errs := by
  unfold finishUpdate
  rw [if_pos ⟨by simp, h⟩]

/-- Recording a still-untyped non-final type never raises diagnostics. -/
theorem updateExprType_nonfinal_untyped_errs (t : Ty) (h : isUntyped t = true) :
    ∀ (y : Expr) (s : CheckState), (updateExprType y t false s).errs = s.errs := by
  intro y
  induction y with
  | ident i =>
    intro s
    cases hl : lookupU s.untyped (Expr.ident i) with
    | none => rw [updateExprType_eq_none _ _ _ _ hl]
    | some old =>
      rw [updateExprType_eq_ident _ _ _ _ _ hl]
      exact finishUpdate_nonfinal_untyped_errs _ _ _ _ h
  | basicLit i =>
    intro s
    cases hl : lookupU s.untyped (Expr.basicLit i) with
    | none => rw [updateExprType_eq_none _ _ _ _ hl]
    | some old =>
      rw [updateExprType_eq_basicLit _ _ _ _ _ hl]
      exact finishUpdate_nonfinal_untyped_errs _ _ _ _ h
  | selector i =>
    intro s
    cases hl : lookupU s.untyped (Expr.selector i) with
    | none => rw [updateExprType_eq_none _ _ _ _ hl]
    | some old =>
      rw [updateExprType_eq_selector _ _ _ _ _ hl]
      exact finishUpdate_nonfinal_untyped_errs _ _ _ _ h
  | call i =>
    intro s
    cases hl : lookupU s.untyped (Expr.call i) with
    | none => rw [updateExprType_eq_none _ _ _ _ hl]
    | some old =>
      rw [updateExprType_eq_call _ _ _ _ _ hl]
      exact finishUpdate_nonfinal_untyped_errs _ _ _ _ h
  | otherE i =>
    intro s
    cases hl : lookupU s.untyped (Expr.otherE i) with
    | none => rw [updateExprType_eq_none _ _ _ _ hl]
    | some old => rw [updateExprType_eq_other _ _ _ _ _ hl]
  | paren inner ih =>
    intro s
    cases hl : lookupU s.untyped (Expr.paren inner) with
    | none => rw [updateExprType_eq_none _ _ _ _ hl]
    | some old =>
      rw [updateExprType_eq_paren _ _ _ _ _ hl]
      rw [finishUpdate_nonfinal_untyped_errs _ _ _ _ h]
      exact ih s
  | unaryE op inner ih =>
    intro s
    cases hl : lookupU s.untyped (Expr.unaryE op inner) with
    | none => rw [updateExprType_eq_none _ _ _ _ hl]
    | some old =>
      rw [updateExprType_eq_unary _ _ _ _ _ _ hl]
      rw [finishUpdate_nonfinal_untyped_errs _ _ _ _ h]
      split
      · rfl
      · exact ih s
  | binaryE op a b iha ihb =>
    intro s
    cases hl : lookupU s.untyped (Expr.binaryE op a b) with
    | none => rw [updateExprType_eq_none _ _ _ _ hl]
    | some old =>
      rw [updateExprType_eq_binary _ _ _ _ _ _ _ hl]
      rw [finishUpdate_nonfinal_untyped_errs _ _ _ _ h]
      split
      · rfl
      · split
        · rfl
        · split
          · exact iha s
          · rw [ihb (updateExprType a t false s)]
            exact iha s

/-- A successful conversion toward an untyped target leaves the
diagnostics unchanged. -/
theorem convertUntyped_untyped_target_errs (ctxt : Context) (y : Operand)
    (target : Ty) (s : CheckState) (ht : isUntyped target = true)
    (hok : (convertUntyped ctxt y target s).1.mode ≠ .invalid) :
    (convertUntyped ctxt y target s).2.errs = s.errs := by
  simp only [convertUntyped, convertError] at hok ⊢
  by_cases h1 : y.mode = .invalid ∨ isUntyped y.typ = false
  · rw [if_pos h1]
  · rw [if_neg h1] at hok ⊢
    rw [if_pos ht] at hok ⊢
    by_cases h2 : isNumeric y.typ = true ∧ isNumeric target = true
    · rw [if_pos h2]
      by_cases h3 : kindCode (asBasic y.typ) < kindCode (asBasic target)
      · rw [if_pos h3]
        exact updateExprType_nonfinal_untyped_errs target ht y.expr s
      · rw [if_neg h3]
    · rw [if_neg h2] at hok ⊢
      by_cases h4 : asBasic y.typ ≠ asBasic target
      · rw [if_pos h4] at hok
        exact absurd rfl hok
      · rw [if_neg h4]

theorem shiftRest_error_invalid (x : Operand) (s : CheckState)
    (hgrow : (shiftRest x s).2.errs ≠ s.errs) :
    (shiftRest x s).1.mode = .invalid := by
  simp only [shiftRest] at hgrow ⊢
  by_cases h : isInteger x.typ = false
  · rw [if_pos h]
  · rw [if_neg h] at hgrow
    exact absurd rfl hgrow

theorem shiftConst_error_invalid (untypedx : Bool) (x y : Operand)
    (op : Token) (s : CheckState)
    (hgrow : (shiftConst untypedx x y op s).2.errs ≠ s.errs) :
    (shiftConst untypedx x y op s).1.mode = .invalid := by
  simp only [shiftConst] at hgrow ⊢
  by_cases h1 : x.mode = .constantM
  · rw [if_pos h1] at hgrow ⊢
    by_cases h2 : y.mode = .constantM
    · rw [if_pos h2] at hgrow ⊢
      cases hu : Value.uint64Val (y.val.getD Value.unknown) with
      | none => rfl
      | some cnt =>
        rw [hu] at hgrow
        dsimp only at hgrow ⊢
        by_cases h3 : 1024 ≤ cnt
        · rw [if_pos h3]
        · rw [if_neg h3] at hgrow
          exact absurd rfl hgrow
    · rw [if_neg h2] at hgrow ⊢
      by_cases h4 : untypedx = true
      · rw [if_pos h4] at hgrow
        exfalso
        apply hgrow
        cases hl : lookupU s.untyped x.expr <;> rfl
      · rw [if_neg h4] at hgrow ⊢
        exact shiftRest_error_invalid x s hgrow
  · rw [if_neg h1] at hgrow ⊢
    exact shiftRest_error_invalid x s hgrow

/-- C9 amended: any error detected by the shift checker sets the operand
mode to invalid before returning; however the operand's type field may
retain its previous, non-Invalid value (the Invalid sentinel is only
established by the dispatcher's entry initialization, not re-established on
error returns). -/
theorem shift_error_sets_invalid_mode (ctxt : Context) (x y : Operand)
    (op : Token) (s : CheckState)
    (hgrow : (shift ctxt x y op s).2.errs ≠ s.errs) :
    (shift ctxt x y op s).1.mode = .invalid := by
  simp only [shift] at hgrow ⊢
  by_cases g1 : isInteger x.typ = false ∧ (isUntyped x.typ = false ∨
      isRepresentableConst (x.val.getD .unknown) ctxt .UntypedInt = false)
  · rw [if_pos g1]
  · rw [if_neg g1] at hgrow ⊢
    by_cases g2 : isInteger y.typ = true ∧ isUnsigned y.typ = true
    · rw [if_pos g2] at hgrow ⊢
      exact shiftConst_error_invalid _ x y op s hgrow
    · rw [if_neg g2] at hgrow ⊢
      by_cases g3 : isUntyped y.typ = true
      · rw [if_pos g3] at hgrow ⊢
        by_cases g4 : (convertUntyped ctxt y (Typ .UntypedInt) s).1.mode = .invalid
        · rw [if_pos g4]
        · rw [if_neg g4] at hgrow ⊢
          have herrs := convertUntyped_untyped_target_errs ctxt y
            (Typ .UntypedInt) s rfl g4
          rw [← herrs] at hgrow
          exact shiftConst_error_invalid _ x _ op _ hgrow
      · rw [if_neg g3]

/-- Witness for the C9 amended theorem: a shift on a non-integer operand
raises a diagnostic and the returned mode is invalid. -/
theorem shift_error_sets_invalid_mode_witness :
    (shift ⟨8⟩ ⟨.value, .ident 0, Typ .Float64, none⟩
      ⟨.constantM, .basicLit 1, Typ .UntypedInt, some (.intV 1)⟩ .SHL
      ⟨[], [], []⟩).1.mode = .invalid :=
  shift_error_sets_invalid_mode ⟨8⟩ ⟨.value, .ident 0, Typ .Float64, none⟩
    ⟨.constantM, .basicLit 1, Typ .UntypedInt, some (.intV 1)⟩ .SHL
    ⟨[], [], []⟩ (by decide)

theorem goodKey_facts (k : Operand) (length : Int) (hg : goodKey k length = true) :
    k.mode = .constantM ∧ k.typ = Typ .Int ∧ k.val = some (.intV (keyVal k)) ∧
    0 ≤ keyVal k ∧ keyVal k ≤ 9223372036854775807 ∧
    (length < 0 ∨ keyVal k < length) := by
  unfold goodKey at hg
  rw [Bool.and_eq_true, Bool.and_eq_true] at hg
  obtain ⟨⟨hm, ht⟩, hv⟩ := hg
  rw [beq_iff_eq] at hm ht
  refine ⟨hm, ht, ?_⟩
  cases hkv : k.val with
  | none =>
    rw [hkv] at hv
    simp at hv
  | some v =>
    rw [hkv] at hv
    cases v <;> simp at hv
    case intV z =>
      have hkz : keyVal k = z := by simp [keyVal, hkv]
      rw [hkz]
      exact ⟨rfl, hv.1.1, hv.1.2, hv.2⟩

/-- A good key passes check.index without diagnostics and yields its
value. -/
theorem index_goodKey (ctxt : Context) (k : Operand) (length : Int)
    (cs : CheckState) (hg : goodKey k length = true) :
    index ctxt k length cs = ((keyVal k, true), cs) := by
  obtain ⟨hm, ht, hv, h0, h1, h2⟩ := goodKey_facts k length hg
  have hu : isUntyped k.typ = false := by
    rw [ht]
    rfl
  simp only [index]
  rw [convertUntyped_noop_typed ctxt k (Typ .Int) cs hu]
  dsimp only
  rw [if_neg (show ¬(k.mode = OperandMode.invalid) by rw [hm]; decide),
    if_neg (show ¬(isInteger k.typ = false) by rw [ht]; decide),
    if_pos hm, hv]
  simp only [Option.getD_some, Value.signv, Value.int64Val]
  have hsgn : 0 ≤ Int.sign (keyVal k) := Int.sign_nonneg.mpr h0
  rw [if_neg (show ¬(Int.sign (keyVal k) < 0) by omega),
    if_pos (show -9223372036854775808 ≤ keyVal k ∧
      keyVal k ≤ 9223372036854775807 from ⟨by omega, h1⟩)]
  dsimp only
  rw [if_neg (show ¬(0 ≤ length ∧ length ≤ keyVal k) by omega)]

/-- C8: a slice expression whose bounds are statically known and inverted
(low > high) reports the inverted-range error but checking continues: the
result is still typed — a slice of the element type for an addressable
array base, the string type for a string base — and its mode is not
invalid. -/
theorem sliceExpr_inverted_range_continues :
    (∀ (ctxt : Context) (s : CheckState) (x l h : Operand) (n : Int) (elt : Ty),
      x.typ = Ty.array n elt → x.mode = .variableM →
      goodKey l (n + 1) = true → goodKey h (n + 1) = true →
      keyVal h < keyVal l →
      (sliceExprCheck ctxt x (some l) (some h) s).2.errs =
        s.errs ++ [ErrKind.invertedRange] ∧
      (sliceExprCheck ctxt x (some l) (some h) s).1.mode = .variableM ∧
      (sliceExprCheck ctxt x (some l) (some h) s).1.typ = Ty.slice elt) ∧
    (∀ (ctxt : Context) (s : CheckState) (x l h : Operand),
      x.typ = Typ .String → x.mode = .value →
      goodKey l (-1) = true → goodKey h (-1) = true →
      keyVal h < keyVal l →
      (sliceExprCheck ctxt x (some l) (some h) s).2.errs =
        s.errs ++ [ErrKind.invertedRange] ∧
      (sliceExprCheck ctxt x (some l) (some h) s).1.mode = .value ∧
      (sliceExprCheck ctxt x (some l) (some h) s).1.typ = Typ .String) := by
  constructor
  · intro ctxt s x l h n elt harr hmode hlo hhi hinv
    have h0l := (goodKey_facts l (n + 1) hlo).2.2.2.1
    have h0h := (goodKey_facts h (n + 1) hhi).2.2.2.1
    have hsp : slicePrep x = .ok (n + 1) { x with typ := Ty.slice elt } := by
      simp [slicePrep, harr, Ty.underlying, hmode]
    simp [sliceExprCheck, hsp, index_goodKey ctxt l (n + 1) s hlo,
      index_goodKey ctxt h (n + 1) s hhi, addErr, h0l, h0h, hinv, hmode]
  · intro ctxt s x l h hstr hmode hlo hhi hinv
    have h0l := (goodKey_facts l (-1) hlo).2.2.2.1
    have h0h := (goodKey_facts h (-1) hhi).2.2.2.1
    have hsp : slicePrep x = .ok (-1)
        { x with mode := .value, typ := Typ .String } := by
      simp [slicePrep, hstr, Typ, Ty.underlying, isStringK, hmode]
    simp [sliceExprCheck, hsp, index_goodKey ctxt l (-1) s hlo,
      index_goodKey ctxt h (-1) s hhi, addErr, h0l, h0h, hinv]

/-- Witness for C8: slicing a length-5 array with bounds 5:2 reports the
inverted range but still yields a slice of the element type. -/
theorem sliceExpr_inverted_range_continues_witness :
    (sliceExprCheck ⟨8⟩ ⟨.variableM, .ident 0, Ty.array 5 (Typ .Int), none⟩
      (some ⟨.constantM, .basicLit 1, Typ .Int, some (.intV 5)⟩)
      (some ⟨.constantM, .basicLit 2, Typ .Int, some (.intV 2)⟩)
      ⟨[], [], []⟩).2.errs = ([] : List ErrKind) ++ [ErrKind.invertedRange] ∧
    (sliceExprCheck ⟨8⟩ ⟨.variableM, .ident 0, Ty.array 5 (Typ .Int), none⟩
      (some ⟨.constantM, .basicLit 1, Typ .Int, some (.intV 5)⟩)
      (some ⟨.constantM, .basicLit 2, Typ .Int, some (.intV 2)⟩)
      ⟨[], [], []⟩).1.mode = .variableM ∧
    (sliceExprCheck ⟨8⟩ ⟨.variableM, .ident 0, Ty.array 5 (Typ .Int), none⟩
      (some ⟨.constantM, .basicLit 1, Typ .Int, some (.intV 5)⟩)
      (some ⟨.constantM, .basicLit 2, Typ .Int, some (.intV 2)⟩)
      ⟨[], [], []⟩).1.typ = Ty.slice (Typ .Int) :=
  sliceExpr_inverted_range_continues.1 ⟨8⟩ ⟨[], [], []⟩
    ⟨.variableM, .ident 0, Ty.array 5 (Typ .Int), none⟩
    ⟨.constantM, .basicLit 1, Typ .Int, some (.intV 5)⟩
    ⟨.constantM, .basicLit 2, Typ .Int, some (.intV 2)⟩ 5 (Typ .Int)
    rfl rfl (by decide) (by decide) (by decide)

theorem errCount_extend_ne (l δ : List ErrKind) (k : ErrKind)
    (hδ : ∀ e ∈ δ, e ≠ k) : errCount k (l ++ δ) = errCount k l := by
  rw [errCount_append]
  have hz : errCount k δ = 0 :=
    List.count_eq_zero.mpr (fun hmem => (hδ k hmem) rfl)
  omega

theorem errCount_addErr_ne (s : CheckState) (e k : ErrKind) (h : e ≠ k) :
    errCount k (addErr s e).errs = errCount k s.errs := by
  have : (addErr s e).errs = s.errs ++ [e] := rfl
  rw [this]
  exact errCount_extend_ne _ _ _ (by simpa using h)

theorem errs_shape_trans {P : ErrKind → Prop} {e1 e2 e3 : List ErrKind}
    (h1 : ∃ δ, e2 = e1 ++ δ ∧ ∀ e ∈ δ, P e)
    (h2 : ∃ δ, e3 = e2 ++ δ ∧ ∀ e ∈ δ, P e) :
    ∃ δ, e3 = e1 ++ δ ∧ ∀ e ∈ δ, P e := by
  obtain ⟨d1, hd1, hp1⟩ := h1
  obtain ⟨d2, hd2, hp2⟩ := h2
  refine ⟨d1 ++ d2, by rw [hd2, hd1, List.append_assoc], ?_⟩
  intro e he
  rcases List.mem_append.mp he with h | h
  · exact hp1 e h
  · exact hp2 e h

theorem errs_shape_nil {P : ErrKind → Prop} {e1 : List ErrKind} :
    ∃ δ, e1 = e1 ++ δ ∧ ∀ e ∈ δ, P e :=
  ⟨[], by simp, by simp⟩

theorem finishUpdate_errs_shape (x : Expr) (typ : Ty) (final : Bool)
    (old : ExprInfo) (s : CheckState) :
    ∃ δ, (finishUpdate x typ final old s).errs = s.errs ++ δ ∧
      ∀ e ∈ δ, e = ErrKind.shiftedOperandMustBeInteger := by
  unfold finishUpdate
  split
  · exact errs_shape_nil
  · split
    · exact ⟨[.shiftedOperandMustBeInteger], rfl, by simp⟩
    · exact errs_shape_nil

/-- updateExprType only ever adds the shifted-operand-must-be-integer
diagnostic. -/
theorem updateExprType_errs_shape (t : Ty) (f : Bool) :
    ∀ (y : Expr) (s : CheckState),
      ∃ δ, (updateExprType y t f s).errs = s.errs ++ δ ∧
        ∀ e ∈ δ, e = ErrKind.shiftedOperandMustBeInteger := by
  intro y
  induction y with
  | ident i =>
    intro s
    cases hl : lookupU s.untyped (Expr.ident i) with
    | none => rw [updateExprType_eq_none _ _ _ _ hl]; exact errs_shape_nil
    | some old =>
      rw [updateExprType_eq_ident _ _ _ _ _ hl]
      exact finishUpdate_errs_shape _ _ _ _ _
  | basicLit i =>
    intro s
    cases hl : lookupU s.untyped (Expr.basicLit i) with
    | none => rw [updateExprType_eq_none _ _ _ _ hl]; exact errs_shape_nil
    | some old =>
      rw [updateExprType_eq_basicLit _ _ _ _ _ hl]
      exact finishUpdate_errs_shape _ _ _ _ _
  | selector i =>
    intro s
    cases hl : lookupU s.untyped (Expr.selector i) with
    | none => rw [updateExprType_eq_none _ _ _ _ hl]; exact errs_shape_nil
    | some old =>
      rw [updateExprType_eq_selector _ _ _ _ _ hl]
      exact finishUpdate_errs_shape _ _ _ _ _
  | call i =>
    intro s
    cases hl : lookupU s.untyped (Expr.call i) with
    | none => rw [updateExprType_eq_none _ _ _ _ hl]; exact errs_shape_nil
    | some old =>
      rw [updateExprType_eq_call _ _ _ _ _ hl]
      exact finishUpdate_errs_shape _ _ _ _ _
  | otherE i =>
    intro s
    cases hl : lookupU s.untyped (Expr.otherE i) with
    | none => rw [updateExprType_eq_none _ _ _ _ hl]; exact errs_shape_nil
    | some old => rw [updateExprType_eq_other _ _ _ _ _ hl]; exact errs_shape_nil
  | paren inner ih =>
    intro s
    cases hl : lookupU s.untyped (Expr.paren inner) with
    | none => rw [updateExprType_eq_none _ _ _ _ hl]; exact errs_shape_nil
    | some old =>
      rw [updateExprType_eq_paren _ _ _ _ _ hl]
      exact errs_shape_trans (ih s) (finishUpdate_errs_shape _ _ _ _ _)
  | unaryE op inner ih =>
    intro s
    cases hl : lookupU s.untyped (Expr.unaryE op inner) with
    | none => rw [updateExprType_eq_none _ _ _ _ hl]; exact errs_shape_nil
    | some old =>
      rw [updateExprType_eq_unary _ _ _ _ _ _ hl]
      refine errs_shape_trans ?_ (finishUpdate_errs_shape _ _ _ _ _)
      split
      · exact errs_shape_nil
      · exact ih s
  | binaryE op a b iha ihb =>
    intro s
    cases hl : lookupU s.untyped (Expr.binaryE op a b) with
    | none => rw [updateExprType_eq_none _ _ _ _ hl]; exact errs_shape_nil
    | some old =>
      rw [updateExprType_eq_binary _ _ _ _ _ _ _ hl]
      refine errs_shape_trans ?_ (finishUpdate_errs_shape _ _ _ _ _)
      split
      · exact errs_shape_nil
      · split
        · exact errs_shape_nil
        · split
          · exact iha s
          · exact errs_shape_trans (iha s) (ihb (updateExprType a t f s))

/-- The checker conversion machinery only raises conversion-related
diagnostics (or the deferred-shift one through finalization). -/
theorem convertUntyped_errs_shape (ctxt : Context) (x : Operand)
    (target : Ty) (s : CheckState) :
    ∃ δ, (convertUntyped ctxt x target s).2.errs = s.errs ++ δ ∧
      ∀ e ∈ δ, e = ErrKind.shiftedOperandMustBeInteger ∨
        e = ErrKind.cannotConvert ∨ e = ErrKind.overflows := by
  have hshape : ∀ (y : Expr) (t : Ty) (f : Bool) (s1 : CheckState),
      ∃ δ, (updateExprType y t f s1).errs = s1.errs ++ δ ∧
        ∀ e ∈ δ, e = ErrKind.shiftedOperandMustBeInteger ∨
          e = ErrKind.cannotConvert ∨ e = ErrKind.overflows := by
    intro y t f s1
    obtain ⟨δ, hd, hp⟩ := updateExprType_errs_shape t f y s1
    exact ⟨δ, hd, fun e he => Or.inl (hp e he)⟩
  have hrep : ∀ (tk : BasicKind) (s1 : CheckState),
      ∃ δ, (isRepresentable ctxt x tk s1).2.errs = s1.errs ++ δ ∧
        ∀ e ∈ δ, e = ErrKind.shiftedOperandMustBeInteger ∨
          e = ErrKind.cannotConvert ∨ e = ErrKind.overflows := by
    intro tk s1
    unfold isRepresentable
    split
    · exact errs_shape_nil
    · split
      · refine ⟨[if isNumeric x.typ = true ∧ isNumericK tk = true then
          ErrKind.overflows else ErrKind.cannotConvert], rfl, ?_⟩
        intro e he
        simp only [List.mem_singleton] at he
        subst he
        split
        · exact Or.inr (Or.inr rfl)
        · exact Or.inr (Or.inl rfl)
      · exact errs_shape_nil
  simp only [convertUntyped, convertError, finishConvert]
  split
  · exact errs_shape_nil
  · split
    · split
      · split
        · exact hshape x.expr target false s
        · exact errs_shape_nil
      · split
        · exact ⟨[.cannotConvert], rfl, by simp⟩
        · exact errs_shape_nil
    · cases htu : target.underlying with
      | basic bk =>
        dsimp only
        split
        · exact hrep bk s
        · exact errs_shape_trans (hrep bk s) (hshape _ target true _)
      | iface empt =>
        dsimp only
        split
        · exact ⟨[.cannotConvert], rfl, by simp⟩
        · split
          · exact hshape _ (Typ .UntypedNil) true s
          · split
            · exact ⟨[.cannotConvert], rfl, by simp⟩
            · exact hshape _ (defaultType x.typ) true s
      | pointer b =>
        dsimp only
        split
        · exact ⟨[.cannotConvert], rfl, by simp⟩
        · exact hshape _ (Typ .UntypedNil) true s
      | signatureT =>
        dsimp only
        split
        · exact ⟨[.cannotConvert], rfl, by simp⟩
        · exact hshape _ (Typ .UntypedNil) true s
      | slice elt =>
        dsimp only
        split
        · exact ⟨[.cannotConvert], rfl, by simp⟩
        · exact hshape _ (Typ .UntypedNil) true s
      | mapT kt et =>
        dsimp only
        split
        · exact ⟨[.cannotConvert], rfl, by simp⟩
        · exact hshape _ (Typ .UntypedNil) true s
      | chanT elt =>
        dsimp only
        split
        · exact ⟨[.cannotConvert], rfl, by simp⟩
        · exact hshape _ (Typ .UntypedNil) true s
      | array n elt => exact ⟨[.cannotConvert], rfl, by simp⟩
      | named i u => exact ⟨[.cannotConvert], rfl, by simp⟩

theorem assignmentCheck_errs_shape (ctxt : Context) (x : Operand) (T : Ty)
    (s : CheckState) :
    ∃ δ, (assignmentCheck ctxt x T s).2.errs = s.errs ++ δ ∧
      ∀ e ∈ δ, e = ErrKind.shiftedOperandMustBeInteger ∨
        e = ErrKind.cannotConvert ∨ e = ErrKind.overflows := by
  simp only [assignmentCheck]
  split
  · exact errs_shape_nil
  · split
    · exact convertUntyped_errs_shape ctxt x T s
    · exact convertUntyped_errs_shape ctxt x T s

theorem assignmentCheck_errCount_other (ctxt : Context) (x : Operand)
    (T : Ty) (s : CheckState) (k : ErrKind)
    (hk1 : k ≠ .shiftedOperandMustBeInteger) (hk2 : k ≠ .cannotConvert)
    (hk3 : k ≠ .overflows) :
    errCount k (assignmentCheck ctxt x T s).2.errs = errCount k s.errs := by
  obtain ⟨δ, hd, hp⟩ := assignmentCheck_errs_shape ctxt x T s
  rw [hd]
  refine errCount_extend_ne _ _ _ ?_
  intro e he
  rcases hp e he with rfl | rfl | rfl
  · exact fun hh => hk1 hh.symm
  · exact fun hh => hk2 hh.symm
  · exact fun hh => hk3 hh.symm

theorem assignmentCheck_typed_identical (ctxt : Context) (x : Operand)
    (T : Ty) (s : CheckState) (hm : x.mode ≠ .invalid)
    (hu : isUntyped x.typ = false) (hid : x.typ = T) :
    assignmentCheck ctxt x T s = ((x, true), s) := by
  simp only [assignmentCheck]
  rw [if_neg hm, convertUntyped_noop_typed ctxt x T s hu]
  dsimp only
  rw [if_neg hm]
  simp [Operand.isAssignableTo, IsIdentical, hid]

theorem contains_iff_mem {α : Type} [DecidableEq α] (l : List α) (a : α) :
    l.contains a = true ↔ a ∈ l := by
  simp [List.contains, List.elem_iff]

theorem dupCount_congr {α : Type} [DecidableEq α] :
    ∀ (l v1 v2 : List α), (∀ a, a ∈ v1 ↔ a ∈ v2) →
      dupCount v1 l = dupCount v2 l := by
  intro l
  induction l with
  | nil => intro v1 v2 _; rfl
  | cons a r ih =>
    intro v1 v2 h
    simp only [dupCount]
    have hc : v1.contains a = v2.contains a := by
      by_cases hm : a ∈ v2
      · rw [(contains_iff_mem v2 a).mpr hm, (contains_iff_mem v1 a).mpr ((h a).mpr hm)]
      · have h1 : ¬ a ∈ v1 := fun hx => hm ((h a).mp hx)
        have e2 : v2.contains a = false := by
          rw [Bool.eq_false_iff]
          intro hx
          exact hm ((contains_iff_mem v2 a).mp hx)
        have e1 : v1.contains a = false := by
          rw [Bool.eq_false_iff]
          intro hx
          exact h1 ((contains_iff_mem v1 a).mp hx)
        rw [e1, e2]
    rw [hc, ih (a :: v1) (a :: v2) (by intro b; simp [h b])]

theorem dupCount_zero_iff {α : Type} [DecidableEq α] :
    ∀ (l vis : List α),
      (dupCount vis l = 0 ↔ l.Nodup ∧ ∀ a ∈ l, a ∉ vis) := by
  intro l
  induction l with
  | nil => intro vis; simp [dupCount]
  | cons a r ih =>
    intro vis
    simp only [dupCount, List.nodup_cons, Nat.add_eq_zero]
    constructor
    · rintro ⟨h1, h2⟩
      have hna : ¬ a ∈ vis := by
        intro hmem
        rw [(contains_iff_mem vis a).mpr hmem] at h1
        simp at h1
      obtain ⟨hnd, hall⟩ := (ih (a :: vis)).mp h2
      refine ⟨⟨?_, hnd⟩, ?_⟩
      · intro hmem
        exact (hall a hmem) (by simp)
      · intro b hb
        simp only [List.mem_cons] at hb
        rcases hb with rfl | hb
        · exact hna
        · intro hbv
          exact (hall b hb) (by simp [hbv])
    · rintro ⟨⟨hna, hnd⟩, hall⟩
      have h1 : (if vis.contains a then 1 else 0) = 0 := by
        rw [if_neg]
        intro hx
        exact (hall a (by simp)) ((contains_iff_mem vis a).mp hx)
      refine ⟨h1, (ih (a :: vis)).mpr ⟨hnd, ?_⟩⟩
      intro b hb
      simp only [List.mem_cons]
      rintro (rfl | hbv)
      · exact hna hb
      · exact (hall b (by simp [hb])) hbv

/-- The map-literal element loop counts exactly one duplicate-key
diagnostic per repeated constant key value. -/
theorem mapLitLoop_dupCount (ctxt : Context) (keyT eltT : Ty)
    (hkt : isUntyped keyT = false) :
    ∀ (elts : List MapElt) (visited : List Value) (s : CheckState),
      goodMapElts keyT elts = true →
      errCount .duplicateKey (mapLitLoop ctxt keyT eltT elts visited s).errs =
        errCount .duplicateKey s.errs + dupCount visited (mapKeys elts) := by
  intro elts
  induction elts with
  | nil =>
    intro visited s _
    simp [mapLitLoop, mapKeys, dupCount]
  | cons el rest ih =>
    intro visited s hg
    cases el with
    | bare v => simp [goodMapElts] at hg
    | kv k v =>
      simp only [goodMapElts, Bool.and_eq_true, beq_iff_eq] at hg
      obtain ⟨⟨hm, ht⟩, hrest⟩ := hg
      have hmne : k.mode ≠ .invalid := by
        rw [hm]
        decide
      have hku : isUntyped k.typ = false := by
        rw [ht]
        exact hkt
      simp only [mapLitLoop]
      rw [assignmentCheck_typed_identical ctxt k keyT s hmne hku ht]
      dsimp only
      rw [if_neg (by decide : ¬(true = false))]
      by_cases hcont : visited.contains (k.val.getD .unknown) = true
      · rw [if_pos ⟨hm, hcont⟩, ih visited (addErr s .duplicateKey) hrest]
        have hone : errCount ErrKind.duplicateKey
            (addErr s .duplicateKey).errs =
            errCount ErrKind.duplicateKey s.errs + 1 := by
          simp [addErr, errCount_append, errCount]
        rw [hone]
        simp only [mapKeys, dupCount]
        rw [if_pos hcont]
        have hmemv : (k.val.getD Value.unknown) ∈ visited :=
          (contains_iff_mem visited _).mp hcont
        rw [dupCount_congr (mapKeys rest) visited
          ((k.val.getD Value.unknown) :: visited)
          (by intro b; simp; intro hb; rw [hb]; exact hmemv)]
        omega
      · rw [if_neg (fun hco => hcont hco.2)]
        rw [if_pos hm]
        have hval : errCount ErrKind.duplicateKey
            (if (assignmentCheck ctxt v eltT s).1.2 = false ∧
                (assignmentCheck ctxt v eltT s).1.1.mode ≠ .invalid then
              addErr (assignmentCheck ctxt v eltT s).2 .cannotUseAsValue
            else (assignmentCheck ctxt v eltT s).2).errs =
            errCount ErrKind.duplicateKey s.errs := by
          have hpres := assignmentCheck_errCount_other ctxt v eltT s
            .duplicateKey (by decide) (by decide) (by decide)
          split
          · rw [errCount_addErr_ne _ _ _ (by decide)]
            exact hpres
          · exact hpres
        rw [ih _ _ hrest, hval]
        simp only [mapKeys, dupCount]
        rw [if_neg (fun hco => hcont hco)]
        omega

/-- C7: for a map composite literal whose elements are key:value pairs
with typed constant keys of the map's (typed) key type, a duplicate-key
diagnostic is raised exactly for keys whose exact values repeat — two
constant keys that are not exactly equal are both accepted — and the
literal's operand carries the declared map type with value mode in either
case. -/
theorem mapLit_duplicate_constant_keys (ctxt : Context) (e : Expr)
    (typ keyT eltT : Ty) (elts : List MapElt) (s : CheckState)
    (hty : typ.deref.underlying = Ty.mapT keyT eltT)
    (hkt : isUntyped keyT = false)
    (hg : goodMapElts keyT elts = true) :
    (compositeLitMap ctxt e typ elts s).1.typ = typ ∧
    (compositeLitMap ctxt e typ elts s).1.mode = .value ∧
    errCount .duplicateKey (compositeLitMap ctxt e typ elts s).2.errs =
      errCount .duplicateKey s.errs + dupCount [] (mapKeys elts) ∧
    (dupCount ([] : List Value) (mapKeys elts) = 0 ↔ (mapKeys elts).Nodup) := by
  have hmap : compositeLitMap ctxt e typ elts s =
      ({ mode := .value, expr := e, typ := typ, val := none },
        mapLitLoop ctxt keyT eltT elts [] s) := by
    simp only [compositeLitMap]
    rw [hty]
  rw [hmap]
  refine ⟨rfl, rfl, mapLitLoop_dupCount ctxt keyT eltT hkt elts [] s hg, ?_⟩
  rw [dupCount_zero_iff]
  simp

/-- Witness for C7: the literal map[int]int{1: 10, 1: 20} raises exactly
one duplicate-key diagnostic and still has the declared map type. -/
theorem mapLit_duplicate_constant_keys_witness :
    (compositeLitMap ⟨8⟩ (.otherE 0) (Ty.mapT (Typ .Int) (Typ .Int))
      [.kv ⟨.constantM, .basicLit 1, Typ .Int, some (.intV 1)⟩
         ⟨.constantM, .basicLit 2, Typ .Int, some (.intV 10)⟩,
       .kv ⟨.constantM, .basicLit 3, Typ .Int, some (.intV 1)⟩
         ⟨.constantM, .basicLit 4, Typ .Int, some (.intV 20)⟩]
      ⟨[], [], []⟩).1.typ = Ty.mapT (Typ .Int) (Typ .Int) ∧
    errCount .duplicateKey (compositeLitMap ⟨8⟩ (.otherE 0)
      (Ty.mapT (Typ .Int) (Typ .Int))
      [.kv ⟨.constantM, .basicLit 1, Typ .Int, some (.intV 1)⟩
         ⟨.constantM, .basicLit 2, Typ .Int, some (.intV 10)⟩,
       .kv ⟨.constantM, .basicLit 3, Typ .Int, some (.intV 1)⟩
         ⟨.constantM, .basicLit 4, Typ .Int, some (.intV 20)⟩]
      ⟨[], [], []⟩).2.errs =
      errCount .duplicateKey (⟨[], [], []⟩ : CheckState).errs +
        dupCount [] (mapKeys
          [.kv ⟨.constantM, .basicLit 1, Typ .Int, some (.intV 1)⟩
             ⟨.constantM, .basicLit 2, Typ .Int, some (.intV 10)⟩,
           .kv ⟨.constantM, .basicLit 3, Typ .Int, some (.intV 1)⟩
             ⟨.constantM, .basicLit 4, Typ .Int, some (.intV 20)⟩]) := by
  obtain ⟨h1, _h2, h3, _h4⟩ := mapLit_duplicate_constant_keys ⟨8⟩ (.otherE 0)
    (Ty.mapT (Typ .Int) (Typ .Int)) (Typ .Int) (Typ .Int)
    [.kv ⟨.constantM, .basicLit 1, Typ .Int, some (.intV 1)⟩
       ⟨.constantM, .basicLit 2, Typ .Int, some (.intV 10)⟩,
     .kv ⟨.constantM, .basicLit 3, Typ .Int, some (.intV 1)⟩
       ⟨.constantM, .basicLit 4, Typ .Int, some (.intV 20)⟩]
    ⟨[], [], []⟩ rfl rfl (by decide)
  exact ⟨h1, h3⟩

theorem ifmax (a b : Int) : (if a < b then b else a) = max a b := by
  rcases le_or_lt b a with h | h
  · rw [if_neg (by omega), max_eq_left h]
  · rw [if_pos h, max_eq_right (le_of_lt h)]

theorem int64wrap_eq_self (z : Int) (h1 : -9223372036854775808 ≤ z)
    (h2 : z ≤ 9223372036854775807) : int64wrap z = z := by
  unfold int64wrap
  omega

theorem indexedEltsStep_kv_spec (ctxt : Context) (typ : Ty) (length : Int)
    (k v : Operand) (st : EltLoopState) (hg : goodKey k length = true)
    (hb : keyVal k ≤ 9223372036854775806) :
    indexedEltsStep ctxt typ length (.kv k v) st =
      ⟨keyVal k :: st.visited, keyVal k + 1,
       max st.maxv (keyVal k + 1),
       (let cs1 := if st.visited.contains (keyVal k) then
          addErr st.cs .duplicateIndex else st.cs
        let ra := assignmentCheck ctxt v typ cs1
        if ra.1.2 = false ∧ ra.1.1.mode ≠ .invalid then
          addErr ra.2 .cannotUseAsValue else ra.2)⟩ := by
  have h0 := (goodKey_facts k length hg).2.2.2.1
  have hw : int64wrap (keyVal k + 1) = keyVal k + 1 :=
    int64wrap_eq_self _ (by omega) (by omega)
  simp only [indexedEltsStep]
  rw [index_goodKey ctxt k length st.cs hg]
  simp [h0, hw, ifmax]

theorem indexedEltsStep_plain_spec (ctxt : Context) (typ : Ty) (length : Int)
    (v : Operand) (st : EltLoopState)
    (hok : ¬(0 ≤ length ∧ length ≤ st.index))
    (h0 : 0 ≤ st.index) (hb : st.index ≤ 9223372036854775806) :
    indexedEltsStep ctxt typ length (.plain v) st =
      ⟨st.index :: st.visited, st.index + 1,
       max st.maxv (st.index + 1),
       (let cs1 := if st.visited.contains st.index then
          addErr st.cs .duplicateIndex else st.cs
        let ra := assignmentCheck ctxt v typ cs1
        if ra.1.2 = false ∧ ra.1.1.mode ≠ .invalid then
          addErr ra.2 .cannotUseAsValue else ra.2)⟩ := by
  have hw : int64wrap (st.index + 1) = st.index + 1 :=
    int64wrap_eq_self _ (by omega) (by omega)
  simp only [indexedEltsStep]
  rw [if_neg hok]
  simp [hw, ifmax]

/-- The element value check (assignment against the element type plus the
possible cannot-use diagnostic) never touches duplicate-index counting. -/
theorem eltValueCheck_dupCount (ctxt : Context) (v : Operand) (typ : Ty)
    (cs1 : CheckState) :
    errCount .duplicateIndex
      ((let ra := assignmentCheck ctxt v typ cs1
        if ra.1.2 = false ∧ ra.1.1.mode ≠ .invalid then
          addErr ra.2 .cannotUseAsValue else ra.2) : CheckState).errs =
    errCount .duplicateIndex cs1.errs := by
  dsimp only
  have hpres := assignmentCheck_errCount_other ctxt v typ cs1 .duplicateIndex
    (by decide) (by decide) (by decide)
  split
  · rw [errCount_addErr_ne _ _ _ (by decide)]
    exact hpres
  · exact hpres

theorem dupHit_count (cs : CheckState) (vis : List Int) (i : Int) :
    errCount .duplicateIndex
      ((if vis.contains i then addErr cs .duplicateIndex else cs) :
        CheckState).errs =
    errCount .duplicateIndex cs.errs + (if vis.contains i then 1 else 0) := by
  split
  · simp [addErr, errCount_append, errCount]
  · simp

/-- Invariant of the indexedElts loop over in-range elements: the maximum
accumulates one past each referenced index, and duplicate-index
diagnostics count exactly the repeats against the visited set. -/
theorem indexedEltsLoop_spec (ctxt : Context) (typ : Ty) (length : Int) :
    ∀ (elts : List CompElt) (vis : List Int) (idx maxv : Int) (cs : CheckState),
      goodElts elts idx length = true →
      (indexedEltsLoop ctxt typ length elts ⟨vis, idx, maxv, cs⟩).maxv =
        List.foldl (fun m i => max m (i + 1)) maxv (eltRefs elts idx) ∧
      errCount .duplicateIndex
          (indexedEltsLoop ctxt typ length elts ⟨vis, idx, maxv, cs⟩).cs.errs =
        errCount .duplicateIndex cs.errs + dupCount vis (eltRefs elts idx) := by
  intro elts
  induction elts with
  | nil =>
    intro vis idx maxv cs _
    exact ⟨rfl, by simp [indexedEltsLoop, eltRefs, dupCount]⟩
  | cons e rest ih =>
    intro vis idx maxv cs hg
    cases e with
    | kv k v =>
      simp only [goodElts, Bool.and_eq_true, decide_eq_true_eq] at hg
      have hgk : goodKey k length = true := by tauto
      have hbk : keyVal k ≤ 9223372036854775806 := by tauto
      have hgr : goodElts rest (keyVal k + 1) length = true := by tauto
      simp only [indexedEltsLoop]
      rw [indexedEltsStep_kv_spec ctxt typ length k v ⟨vis, idx, maxv, cs⟩ hgk hbk]
      dsimp only
      obtain ⟨ihm, ihe⟩ := ih (keyVal k :: vis) (keyVal k + 1)
        (max maxv (keyVal k + 1)) _ hgr
      refine ⟨?_, ?_⟩
      · rw [ihm]
        simp only [eltRefs, List.foldl]
      · rw [ihe, eltValueCheck_dupCount, dupHit_count]
        simp only [eltRefs, dupCount]
        omega
    | plain v =>
      simp only [goodElts, Bool.and_eq_true, Bool.or_eq_true,
        decide_eq_true_eq] at hg
      have h0i : 0 ≤ idx := by tauto
      have hbi : idx ≤ 9223372036854775806 := by tauto
      have hrange : length < 0 ∨ idx < length := by tauto
      have hgr : goodElts rest (idx + 1) length = true := by tauto
      have hok : ¬(0 ≤ length ∧ length ≤ idx) := by
        rcases hrange with h | h <;> omega
      simp only [indexedEltsLoop]
      rw [indexedEltsStep_plain_spec ctxt typ length v ⟨vis, idx, maxv, cs⟩
        hok h0i hbi]
      dsimp only
      obtain ⟨ihm, ihe⟩ := ih (idx :: vis) (idx + 1) (max maxv (idx + 1)) _ hgr
      refine ⟨?_, ?_⟩
      · rw [ihm]
        simp only [eltRefs, List.foldl]
      · rw [ihe, eltValueCheck_dupCount, dupHit_count]
        simp only [eltRefs, dupCount]
        omega

theorem foldl_maxplus_shift :
    ∀ (l : List Int) (a : Int),
      List.foldl (fun m i => max m (i + 1)) (a + 1) l =
        List.foldl max a l + 1 := by
  intro l
  induction l with
  | nil => intro a; rfl
  | cons i r ih =>
    intro a
    simp only [List.foldl]
    rw [max_add_add_right a i 1]
    exact ih (max a i)

theorem foldl_maxplus_nonneg (l : List Int) (hne : l ≠ [])
    (hpos : ∀ i ∈ l, 0 ≤ i) :
    List.foldl (fun m i => max m (i + 1)) 0 l = 1 + List.foldl max 0 l := by
  cases l with
  | nil => exact absurd rfl hne
  | cons i r =>
    have h0 : 0 ≤ i := hpos i (by simp)
    simp only [List.foldl]
    have h1 : max 0 (i + 1) = i + 1 := by omega
    have h2 : max 0 i = i := by omega
    rw [h1, h2, foldl_maxplus_shift r i]
    omega

theorem eltRefs_nonneg :
    ∀ (elts : List CompElt) (idx length : Int),
      goodElts elts idx length = true → 0 ≤ idx →
      ∀ i ∈ eltRefs elts idx, 0 ≤ i := by
  intro elts
  induction elts with
  | nil =>
    intro idx length _ _ i hi
    simp [eltRefs] at hi
  | cons e r ih =>
    intro idx length hg h0 i hi
    cases e with
    | kv k v =>
      simp only [goodElts, Bool.and_eq_true, decide_eq_true_eq] at hg
      have hgk : goodKey k length = true := by tauto
      have hgr : goodElts r (keyVal k + 1) length = true := by tauto
      have hk := (goodKey_facts k length hgk).2.2.2.1
      simp only [eltRefs, List.mem_cons] at hi
      rcases hi with rfl | hi
      · exact hk
      · exact ih (keyVal k + 1) length hgr (by omega) i hi
    | plain v =>
      simp only [goodElts, Bool.and_eq_true, Bool.or_eq_true,
        decide_eq_true_eq] at hg
      have hgr : goodElts r (idx + 1) length = true := by tauto
      simp only [eltRefs, List.mem_cons] at hi
      rcases hi with rfl | hi
      · exact h0
      · exact ih (idx + 1) length hgr (by omega) i hi

theorem eltRefs_ne_nil (elts : List CompElt) (idx : Int) (h : elts ≠ []) :
    eltRefs elts idx ≠ [] := by
  cases elts with
  | nil => exact absurd rfl h
  | cons e r => cases e <;> simp [eltRefs]

/-- C3 (amended): for an array/slice composite literal whose (keyed or
positional, possibly out-of-order) indices are in range AND stay below the
int64 maximum — so the int64 running-index increment after each element
does not wrap — the computed length is one plus the maximum index
referenced, and a duplicate-index diagnostic is raised exactly for indices
that repeat one already used.  Without the wrap restriction the original
claim is false: see the counterexample on a slice literal keyed at
9223372036854775807, where the source wraps index++ to the int64 minimum
and computes length 0. -/
theorem indexedElts_length_and_duplicates (ctxt : Context)
    (elts : List CompElt) (typ : Ty) (length : Int) (s : CheckState)
    (hg : goodElts elts 0 length = true) :
    (indexedElts ctxt elts typ length s).1 =
      List.foldl (fun m i => max m (i + 1)) 0 (eltRefs elts 0) ∧
    (elts ≠ [] → (indexedElts ctxt elts typ length s).1 =
      1 + List.foldl max 0 (eltRefs elts 0)) ∧
    errCount .duplicateIndex (indexedElts ctxt elts typ length s).2.errs =
      errCount .duplicateIndex s.errs + dupCount [] (eltRefs elts 0) ∧
    (dupCount ([] : List Int) (eltRefs elts 0) = 0 ↔ (eltRefs elts 0).Nodup) := by
  obtain ⟨h1, h2⟩ := indexedEltsLoop_spec ctxt typ length elts [] 0 0 s hg
  simp only [indexedElts]
  refine ⟨h1, ?_, h2, ?_⟩
  · intro hne
    rw [h1]
    exact foldl_maxplus_nonneg (eltRefs elts 0) (eltRefs_ne_nil elts 0 hne)
      (eltRefs_nonneg elts 0 length hg (le_refl 0))
  · rw [dupCount_zero_iff]
    simp

/-- Witness for C3: the literal [5]int{0: 1, 4: 9} has computed length 5
and raises no duplicate-index diagnostic. -/
theorem indexedElts_length_and_duplicates_witness :
    (indexedElts ⟨8⟩
      [.kv ⟨.constantM, .basicLit 1, Typ .Int, some (.intV 0)⟩
         ⟨.constantM, .basicLit 2, Typ .Int, some (.intV 1)⟩,
       .kv ⟨.constantM, .basicLit 3, Typ .Int, some (.intV 4)⟩
         ⟨.constantM, .basicLit 4, Typ .Int, some (.intV 9)⟩]
      (Typ .Int) 5 ⟨[], [], []⟩).1 =
      1 + List.foldl max 0 (eltRefs
        [.kv ⟨.constantM, .basicLit 1, Typ .Int, some (.intV 0)⟩
           ⟨.constantM, .basicLit 2, Typ .Int, some (.intV 1)⟩,
         .kv ⟨.constantM, .basicLit 3, Typ .Int, some (.intV 4)⟩
           ⟨.constantM, .basicLit 4, Typ .Int, some (.intV 9)⟩] 0) :=
  (indexedElts_length_and_duplicates ⟨8⟩
    [.kv ⟨.constantM, .basicLit 1, Typ .Int, some (.intV 0)⟩
       ⟨.constantM, .basicLit 2, Typ .Int, some (.intV 1)⟩,
     .kv ⟨.constantM, .basicLit 3, Typ .Int, some (.intV 4)⟩
       ⟨.constantM, .basicLit 4, Typ .Int, some (.intV 9)⟩]
    (Typ .Int) 5 ⟨[], [], []⟩ (by decide)).2.1 (by decide)

/-- C3 counterexample: in the slice literal []int{9223372036854775807: 1}
the key passes every check of expr.go (non-negative, int64-representable,
no declared length), but the int64 running index wraps on the
post-element increment (expr.go:752) to the int64 minimum, the maximum is
never updated, and the computed length is 0 — not one plus the maximum
index referenced (which would be 2^63). -/
theorem indexedElts_int64_wrap_counterexample :
    (indexedElts ⟨8⟩
      [.kv ⟨.constantM, .basicLit 1, Typ .Int, some (.intV 9223372036854775807)⟩
         ⟨.constantM, .basicLit 2, Typ .Int, some (.intV 1)⟩]
      (Typ .Int) (-1) ⟨[], [], []⟩).1 = 0 ∧
    (indexedElts ⟨8⟩
      [.kv ⟨.constantM, .basicLit 1, Typ .Int, some (.intV 9223372036854775807)⟩
         ⟨.constantM, .basicLit 2, Typ .Int, some (.intV 1)⟩]
      (Typ .Int) (-1) ⟨[], [], []⟩).1 ≠
      1 + List.foldl max 0 (eltRefs
        [.kv ⟨.constantM, .basicLit 1, Typ .Int, some (.intV 9223372036854775807)⟩
           ⟨.constantM, .basicLit 2, Typ .Int, some (.intV 1)⟩] 0) := by
  decide

end GoTypes
